import Mathlib

/-!
Verification of the n64savegametools savegame conversion engine.

This file shallowly embeds the repository code:
  - `src/n64savegametools/byteswap.py` (the byte-order normalizer),
  - `src/n64savegametools/n64rominfo.py` (first-byte ROM layout classifier),
  - `src/n64savegametools/savegame.py` (the savegame adapters: Everdrive 64,
    Mupen64Plus combined image, Project64),
  - `src/n64savegametools/savecopy.py` (the file-copy orchestrator),
and proves properties of the embedded definitions.

Bytes are modelled as `Nat` (values 0..255 on real inputs), buffers as
`List Nat`, fallible code as `Except String` or an explicit error type, and
stateful file-system code as explicit state passing that also records a trace
of the performed file operations.
-/

namespace N64

/-! ## byteswap.py -/

/-- The effect of the slice assignments in `byteswap.swap` on a buffer whose
length is a multiple of 4: each 4-byte group is permuted according to the two
flags.  `arr[0::4],arr[1::4],arr[2::4],arr[3::4] = arr[3::4],arr[2::4],arr[1::4],arr[0::4]`
is the per-group reversal; `arr[0::2],arr[1::2] = arr[1::2],arr[0::2]` swaps
adjacent byte pairs; the halfword variant swaps the two 2-byte halves. -/
def swapChunks (byteswap halfwordswap : Bool) : List Nat → List Nat
  | a :: b :: c :: d :: rest =>
    (if byteswap then
       if halfwordswap then [d, c, b, a] else [b, a, d, c]
     else
       if halfwordswap then [c, d, a, b] else [a, b, c, d]) ++
    swapChunks byteswap halfwordswap rest
  | l => l

/-- `byteswap.swap(arr, byteswap=True, halfwordswap=True)`: raises IOError when
the length is not a multiple of 4 (before touching the buffer), otherwise
permutes each 4-byte group in place.  The Python default for both flags is
`True`. -/
def swap (arr : List Nat) (byteswap : Bool := true) (halfwordswap : Bool := true) :
    Except String (List Nat) :=
  if arr.length % 4 ≠ 0 then
    .error "Expected bytearray to be a multiple of 4 bytes"
  else
    .ok (swapChunks byteswap halfwordswap arr)

/-! ## n64rominfo.py -/

/-- `n64rominfo._get_swapping_needed_for_little_endian`: classify a ROM image
by its first byte; the returned pair is `(byteswap, halfwordswap)` to pass to
`swap` to reach the little-endian reference order used for hashing. -/
def getSwappingNeededForLittleEndian (byte : Nat) : Except String (Bool × Bool) :=
  if byte = 0x80 then .ok (true, true)
  else if byte = 0x37 then .ok (false, true)
  else if byte = 0x40 then .ok (false, false)
  else if byte = 0x12 then .ok (true, false)
  else .error "First byte of file does not match N64 ROM"

/-! ## savegame.py: the save-data model -/

inductive Endianness where
  | BIG_ENDIAN
  | LITTLE_ENDIAN
deriving DecidableEq, Repr

/-- `savegame._SaveData`: an owned byte buffer tagged with its byte order. -/
structure SaveData where
  data : List Nat
  endianness : Endianness := .BIG_ENDIAN
deriving DecidableEq, Repr

/-- `_SaveData.set_endianness`: swap (full 4-byte reversal, the `swap`
defaults) when the requested order differs from the current tag. -/
def SaveData.setEndianness (sd : SaveData) (e : Endianness) : Except String SaveData :=
  if e = sd.endianness then .ok sd
  else (swap sd.data).map (fun d => { data := d, endianness := e })

/-- `savegame.Savegame`: the canonical format-agnostic save state.  The Python
class keeps the four memory paks in a 4-element list; they are the four `mpk`
fields here.  `timestamp` is the newest source-file modification time in
nanoseconds. -/
structure Savegame where
  eeprom : Option SaveData := none
  sram : Option SaveData := none
  flashram : Option SaveData := none
  mpk1 : Option SaveData := none
  mpk2 : Option SaveData := none
  mpk3 : Option SaveData := none
  mpk4 : Option SaveData := none
  timestamp : Nat := 0
deriving DecidableEq, Repr

/-- `Savegame.has_save`: true iff at least one component is present. -/
def Savegame.hasSave (s : Savegame) : Bool :=
  s.eeprom.isSome || s.sram.isSome || s.flashram.isSome ||
  s.mpk1.isSome || s.mpk2.isSome || s.mpk3.isSome || s.mpk4.isSome

def EEPROM_BYTESIZES : List Nat := [512, 2048]
def SRAM_BYTESIZE : Nat := 32768
def MPK_BYTESIZE : Nat := 32768
def FLASHRAM_BYTESIZE : Nat := 131072

/-- `savegame._is_empty_data`: every byte equals the first byte, which must be
0x00 or 0xFF.  The Python function indexes `data[0]` and so is never applied
to an empty buffer in the code; the `[]` case here is the vacuous `true`. -/
def isEmptyData : List Nat → Bool
  | [] => true
  | b :: rest => (b == 0 || b == 0xff) && rest.all (fun x => x == b)

/-- `savegame._strip_empty_data`. -/
def stripEmptyData (data : List Nat) : Option (List Nat) :=
  if isEmptyData data then none else some data

/-- The 768 bytes obtained by base64- then bz2-decoding
`savegame._FORMATTED_MPK_BZ2_B64` (the first 768 bytes of a factory-formatted
memory pak). -/
def FORMATTED_MPK_HEAD : List Nat :=
  [
    129,1,2,3,4,5,6,7,8,9,10,11,12,13,14,15,16,17,18,19,20,21,22,23,24,25,26,27,28,29,30,31,
    255,255,255,255,5,26,95,19,0,0,0,0,0,0,0,0,255,255,255,255,255,255,255,255,255,255,1,255,102,37,153,205,
    0,0,0,0,0,0,0,0,0,0,0,0,0,0,0,0,0,0,0,0,0,0,0,0,0,0,0,0,0,0,0,0,
    255,255,255,255,5,26,95,19,0,0,0,0,0,0,0,0,255,255,255,255,255,255,255,255,255,255,1,255,102,37,153,205,
    255,255,255,255,5,26,95,19,0,0,0,0,0,0,0,0,255,255,255,255,255,255,255,255,255,255,1,255,102,37,153,205,
    0,0,0,0,0,0,0,0,0,0,0,0,0,0,0,0,0,0,0,0,0,0,0,0,0,0,0,0,0,0,0,0,
    255,255,255,255,5,26,95,19,0,0,0,0,0,0,0,0,255,255,255,255,255,255,255,255,255,255,1,255,102,37,153,205,
    0,0,0,0,0,0,0,0,0,0,0,0,0,0,0,0,0,0,0,0,0,0,0,0,0,0,0,0,0,0,0,0,
    0,113,0,3,0,3,0,3,0,3,0,3,0,3,0,3,0,3,0,3,0,3,0,3,0,3,0,3,0,3,0,3,
    0,3,0,3,0,3,0,3,0,3,0,3,0,3,0,3,0,3,0,3,0,3,0,3,0,3,0,3,0,3,0,3,
    0,3,0,3,0,3,0,3,0,3,0,3,0,3,0,3,0,3,0,3,0,3,0,3,0,3,0,3,0,3,0,3,
    0,3,0,3,0,3,0,3,0,3,0,3,0,3,0,3,0,3,0,3,0,3,0,3,0,3,0,3,0,3,0,3,
    0,3,0,3,0,3,0,3,0,3,0,3,0,3,0,3,0,3,0,3,0,3,0,3,0,3,0,3,0,3,0,3,
    0,3,0,3,0,3,0,3,0,3,0,3,0,3,0,3,0,3,0,3,0,3,0,3,0,3,0,3,0,3,0,3,
    0,3,0,3,0,3,0,3,0,3,0,3,0,3,0,3,0,3,0,3,0,3,0,3,0,3,0,3,0,3,0,3,
    0,3,0,3,0,3,0,3,0,3,0,3,0,3,0,3,0,3,0,3,0,3,0,3,0,3,0,3,0,3,0,3,
    0,113,0,3,0,3,0,3,0,3,0,3,0,3,0,3,0,3,0,3,0,3,0,3,0,3,0,3,0,3,0,3,
    0,3,0,3,0,3,0,3,0,3,0,3,0,3,0,3,0,3,0,3,0,3,0,3,0,3,0,3,0,3,0,3,
    0,3,0,3,0,3,0,3,0,3,0,3,0,3,0,3,0,3,0,3,0,3,0,3,0,3,0,3,0,3,0,3,
    0,3,0,3,0,3,0,3,0,3,0,3,0,3,0,3,0,3,0,3,0,3,0,3,0,3,0,3,0,3,0,3,
    0,3,0,3,0,3,0,3,0,3,0,3,0,3,0,3,0,3,0,3,0,3,0,3,0,3,0,3,0,3,0,3,
    0,3,0,3,0,3,0,3,0,3,0,3,0,3,0,3,0,3,0,3,0,3,0,3,0,3,0,3,0,3,0,3,
    0,3,0,3,0,3,0,3,0,3,0,3,0,3,0,3,0,3,0,3,0,3,0,3,0,3,0,3,0,3,0,3,
    0,3,0,3,0,3,0,3,0,3,0,3,0,3,0,3,0,3,0,3,0,3,0,3,0,3,0,3,0,3,0,3
  ]

/-- `savegame._FORMATTED_MPK`: the decoded template left-justified with zeros
to the 32768-byte pak size. -/
def FORMATTED_MPK : List Nat := FORMATTED_MPK_HEAD ++ List.replicate 32000 0

/-- `savegame._is_effectively_empty_memory_pak`: the first 0x102 bytes match
the factory template and every byte of `data[0x10a:0x200]` is 0 or 3. -/
def isEffectivelyEmptyMemoryPak (data : List Nat) : Bool :=
  (data.take 0x102 == FORMATTED_MPK.take 0x102) &&
  ((data.drop 0x10a).take (0x200 - 0x10a)).all (fun b => b == 0 || b == 3)

/-- `savegame._mpk_to_savegame_data`. -/
def mpkToSavegameData (data : List Nat) : Option SaveData :=
  if isEffectivelyEmptyMemoryPak data then none
  else some { data := data, endianness := .BIG_ENDIAN }

/-! ## savegame.py: the Mupen64Plus combined-image adapter (content level)

`struct.pack` with format `>2048s32768s32768s32768s32768s32768s131072s`
(`_MUPEN64PLUS_SRM_STRUCT`) truncates a field that is longer than its declared
size and pads a shorter one with zero bytes. -/

/-- One `struct.pack` fixed-size `s` field: truncate or zero-pad to `n`. -/
def packField (n : Nat) (d : List Nat) : List Nat :=
  d.take n ++ List.replicate (n - d.length) 0

/-- The byte content of the combined `.srm` file written by
`Mupen64PlusSavegame.export_to_disk` (lines 112-122): missing components are
synthesized (EEPROM empty, SRAM/FlashRAM all-0xFF little-endian, paks the
factory template), components are normalized to the per-region byte order, and
the seven fields are packed back to back.  Note the source computes
`eeprom.data.ljust(...)` on line 113 but discards the result, so the EEPROM
field is zero-padded by `struct.pack` rather than 0xFF-padded. -/
def mupenExportData (s : Savegame) : Except String (List Nat) := do
  let eeprom := s.eeprom.getD { data := [], endianness := .BIG_ENDIAN }
  let sram := s.sram.getD { data := List.replicate SRAM_BYTESIZE 0xff, endianness := .LITTLE_ENDIAN }
  let flashram := s.flashram.getD { data := List.replicate FLASHRAM_BYTESIZE 0xff, endianness := .LITTLE_ENDIAN }
  let mpk1 := s.mpk1.getD { data := FORMATTED_MPK, endianness := .BIG_ENDIAN }
  let mpk2 := s.mpk2.getD { data := FORMATTED_MPK, endianness := .BIG_ENDIAN }
  let mpk3 := s.mpk3.getD { data := FORMATTED_MPK, endianness := .BIG_ENDIAN }
  let mpk4 := s.mpk4.getD { data := FORMATTED_MPK, endianness := .BIG_ENDIAN }
  let e ← eeprom.setEndianness .BIG_ENDIAN
  let sr ← sram.setEndianness .LITTLE_ENDIAN
  let m1 ← mpk1.setEndianness .BIG_ENDIAN
  let m2 ← mpk2.setEndianness .BIG_ENDIAN
  let m3 ← mpk3.setEndianness .BIG_ENDIAN
  let m4 ← mpk4.setEndianness .BIG_ENDIAN
  let fl ← flashram.setEndianness .LITTLE_ENDIAN
  pure (packField 2048 e.data ++ packField MPK_BYTESIZE m1.data ++
        packField MPK_BYTESIZE m2.data ++ packField MPK_BYTESIZE m3.data ++
        packField MPK_BYTESIZE m4.data ++ packField SRAM_BYTESIZE sr.data ++
        packField FLASHRAM_BYTESIZE fl.data)

/-- `Mupen64PlusSavegame.import_from_disk` on the byte content of an existing
combined file: `struct.unpack` requires exactly 296960 bytes, then each field
goes through the emptiness predicates; a 2048-byte EEPROM whose upper half is
uniform-fill is trimmed to 512 bytes. -/
def mupenImportData (bytes : List Nat) : Except String Savegame :=
  if bytes.length ≠ 296960 then
    .error "struct.error: unpack requires a buffer of 296960 bytes"
  else
    let eeprom := bytes.take 2048
    let mpk1 := (bytes.drop 2048).take MPK_BYTESIZE
    let mpk2 := (bytes.drop 34816).take MPK_BYTESIZE
    let mpk3 := (bytes.drop 67584).take MPK_BYTESIZE
    let mpk4 := (bytes.drop 100352).take MPK_BYTESIZE
    let sram := (bytes.drop 133120).take SRAM_BYTESIZE
    let flashram := (bytes.drop 165888).take FLASHRAM_BYTESIZE
    .ok {
      eeprom :=
        (stripEmptyData eeprom).map (fun e =>
          { data := if isEmptyData ((e.drop 512).take 1536) then e.take 512 else e,
            endianness := .BIG_ENDIAN }),
      sram := (stripEmptyData sram).map (fun d => { data := d, endianness := .LITTLE_ENDIAN }),
      flashram := (stripEmptyData flashram).map (fun d => { data := d, endianness := .LITTLE_ENDIAN }),
      mpk1 := mpkToSavegameData mpk1,
      mpk2 := mpkToSavegameData mpk2,
      mpk3 := mpkToSavegameData mpk3,
      mpk4 := mpkToSavegameData mpk4,
      timestamp := 0 }

/-! ## savegame.py: the split-file adapters (content level)

The Everdrive 64 and Project64 adapters read and write one file per present
component.  `MultipleSaveData` is the per-file byte content: `none` means the
file is absent (not written on export, left `None` on import). -/

structure MultipleSaveData where
  eeprom : Option (List Nat) := none
  sram : Option (List Nat) := none
  flashram : Option (List Nat) := none
  mpk1 : Option (List Nat) := none
  mpk2 : Option (List Nat) := none
  mpk3 : Option (List Nat) := none
  mpk4 : Option (List Nat) := none
deriving DecidableEq, Repr

/-- `Savegame._export_to_file` without the file system: a present component is
normalized to the requested byte order and becomes the file content; an absent
component writes nothing. -/
def exportComp (sd? : Option SaveData) (e : Endianness) : Except String (Option (List Nat)) :=
  match sd? with
  | none => .ok none
  | some sd => (sd.setEndianness e).map (fun x => some x.data)

/-- `Everdrive64Savegame.export_to_disk` file contents: every region stays in
the native big-endian order. -/
def everdriveExportFiles (s : Savegame) : Except String MultipleSaveData := do
  let e ← exportComp s.eeprom .BIG_ENDIAN
  let sr ← exportComp s.sram .BIG_ENDIAN
  let fl ← exportComp s.flashram .BIG_ENDIAN
  let m1 ← exportComp s.mpk1 .BIG_ENDIAN
  let m2 ← exportComp s.mpk2 .BIG_ENDIAN
  let m3 ← exportComp s.mpk3 .BIG_ENDIAN
  let m4 ← exportComp s.mpk4 .BIG_ENDIAN
  pure { eeprom := e, sram := sr, flashram := fl, mpk1 := m1, mpk2 := m2, mpk3 := m3, mpk4 := m4 }

/-- `Everdrive64Savegame.import_from_disk` on file contents: every present
file becomes a big-endian component, with no emptiness filtering. -/
def everdriveImportFiles (f : MultipleSaveData) : Savegame :=
  { eeprom := f.eeprom.map (fun d => { data := d, endianness := .BIG_ENDIAN }),
    sram := f.sram.map (fun d => { data := d, endianness := .BIG_ENDIAN }),
    flashram := f.flashram.map (fun d => { data := d, endianness := .BIG_ENDIAN }),
    mpk1 := f.mpk1.map (fun d => { data := d, endianness := .BIG_ENDIAN }),
    mpk2 := f.mpk2.map (fun d => { data := d, endianness := .BIG_ENDIAN }),
    mpk3 := f.mpk3.map (fun d => { data := d, endianness := .BIG_ENDIAN }),
    mpk4 := f.mpk4.map (fun d => { data := d, endianness := .BIG_ENDIAN }),
    timestamp := 0 }

/-- `Project64Savegame.export_to_disk` file contents: SRAM and FlashRAM are
written little-endian, EEPROM and the paks big-endian. -/
def project64ExportFiles (s : Savegame) : Except String MultipleSaveData := do
  let e ← exportComp s.eeprom .BIG_ENDIAN
  let sr ← exportComp s.sram .LITTLE_ENDIAN
  let fl ← exportComp s.flashram .LITTLE_ENDIAN
  let m1 ← exportComp s.mpk1 .BIG_ENDIAN
  let m2 ← exportComp s.mpk2 .BIG_ENDIAN
  let m3 ← exportComp s.mpk3 .BIG_ENDIAN
  let m4 ← exportComp s.mpk4 .BIG_ENDIAN
  pure { eeprom := e, sram := sr, flashram := fl, mpk1 := m1, mpk2 := m2, mpk3 := m3, mpk4 := m4 }

/-- `Project64Savegame.import_from_disk` on file contents: SRAM and FlashRAM
are tagged little-endian, FlashRAM is zero-padded (`ljust`) to 131072 bytes
on import, and each pak goes through the factory-template emptiness filter. -/
def project64ImportFiles (f : MultipleSaveData) : Savegame :=
  { eeprom := f.eeprom.map (fun d => { data := d, endianness := .BIG_ENDIAN }),
    sram := f.sram.map (fun d => { data := d, endianness := .LITTLE_ENDIAN }),
    flashram := f.flashram.map (fun d =>
      { data := d ++ List.replicate (FLASHRAM_BYTESIZE - d.length) 0,
        endianness := .LITTLE_ENDIAN }),
    mpk1 := f.mpk1.bind mpkToSavegameData,
    mpk2 := f.mpk2.bind mpkToSavegameData,
    mpk3 := f.mpk3.bind mpkToSavegameData,
    mpk4 := f.mpk4.bind mpkToSavegameData,
    timestamp := 0 }

/-- Normalize a tagged buffer to big-endian byte order (the common order used
to compare components semantically). -/
def SaveData.normalizeBig (sd : SaveData) : List Nat :=
  match sd.endianness with
  | .BIG_ENDIAN => sd.data
  | .LITTLE_ENDIAN => swapChunks true true sd.data

/-- Two optional components are semantically equal when both are absent or
both are present with the same bytes after normalizing to big-endian order. -/
def normEq (a b : Option SaveData) : Prop :=
  match a, b with
  | none, none => True
  | some x, some y => x.normalizeBig = y.normalizeBig
  | _, _ => False

/-! ## File paths and file-system state

Save-file paths produced by the adapters always have the form
`directory / (stem + suffix)`; `FP` keeps the three pieces apart (the suffix
strings are the concrete literals from the code, so distinctness of the files
of one game is by computation). -/

structure FP where
  dir : List String
  stem : String
  suffix : String
deriving DecidableEq, Repr

/-- `item.parent / "backup" / item.name`: same file name, sibling backup
directory. -/
def FP.backup (p : FP) : FP :=
  { dir := p.dir ++ ["backup"], stem := p.stem, suffix := p.suffix }

/-- A trace entry for each file-system operation the code performs. -/
inductive Event where
  | mkdir (dir : List String)
  | write (p : FP) (data : List Nat)
  | utime (p : FP) (mtime : Nat)
  | rename (src dst : FP)
  | copyFile (src dst : FP)
  | copyStat (src dst : FP)
deriving DecidableEq, Repr

/-! ## savecopy.py: the file-copy orchestrator -/

/-- File-system state for the savecopy engine: file contents plus the set of
existing directories (modification times play no role in this engine). -/
structure CopyFS where
  files : List (FP × List Nat)
  dirs : List (List String)
deriving DecidableEq, Repr

def CopyFS.lookup (fs : CopyFS) (p : FP) : Option (List Nat) :=
  (fs.files.find? (fun e => e.1 == p)).map (fun e => e.2)

def CopyFS.isFile (fs : CopyFS) (p : FP) : Bool :=
  (fs.lookup p).isSome

def CopyFS.isDir (fs : CopyFS) (d : List String) : Bool :=
  fs.dirs.contains d

def CopyFS.write (fs : CopyFS) (p : FP) (data : List Nat) : CopyFS :=
  { fs with files := (p, data) :: fs.files.filter (fun e => !(e.1 == p)) }

def CopyFS.remove (fs : CopyFS) (p : FP) : CopyFS :=
  { fs with files := fs.files.filter (fun e => !(e.1 == p)) }

def CopyFS.mkdir (fs : CopyFS) (d : List String) : CopyFS :=
  { fs with dirs := d :: fs.dirs }

/-- `savecopy.SaveFiles`: the per-key optional paths (`mpk` is the bare
ROM-filename pak, `mpks` the four controller-indexed paks). -/
structure CopySaveFiles where
  eeprom : Option FP := none
  sram : Option FP := none
  flashram : Option FP := none
  mpk : Option FP := none
  mpks : List (Option FP) := [none, none, none, none]
deriving DecidableEq, Repr

/-- `savecopy.SaveFormat`. -/
inductive SaveFormat where
  | ED64
  | PJ64
  | RETROARCH
deriving DecidableEq, Repr

/-- The scalar component keys iterated by `_copy_save_files` (the Python code
uses the field-name strings). -/
inductive CKey where
  | eeprom
  | sram
  | flashram
  | mpk
deriving DecidableEq, Repr

/-- `savecopy.little_endian` configuration table. -/
def littleEndianKeys : SaveFormat → List CKey
  | .ED64 => []
  | .PJ64 => [.sram, .flashram]
  | .RETROARCH => [.sram, .flashram]

/-- `savecopy.unpadded` configuration table. -/
def unpaddedKeys : SaveFormat → List CKey
  | .ED64 => []
  | .PJ64 => [.flashram]
  | .RETROARCH => []

/-- `savecopy.expected_bytesizes` as used for `pad_to` (only the flashram
entry is ever reached; the eeprom entry of the Python dict holds a list and is
never used as a pad size). -/
def expectedBytesize : CKey → Option Nat
  | .flashram => some 131072
  | _ => none

/-- `pad_to = expected_bytesizes[key] if (key in unpadded[src_save_format]) else None`. -/
def padFor (fmt : SaveFormat) (k : CKey) : Option Nat :=
  if (unpaddedKeys fmt).contains k then expectedBytesize k else none

/-- The failure modes of the copy engine.  `sameLocation` is produced nowhere
in the code; it is included so that the specified same-location failure can be
stated and compared against what the code actually does. -/
inductive CopyErr where
  | fileNotFound
  | ambiguousPakLayout
  | savefileTooLarge
  | invalidLength
  | notImplemented
  | attrError
  | sameLocation
deriving DecidableEq, Repr

/-- Result of a copy-engine step: the outcome, the file system after the step
(also on failure, for the operations already performed), and the trace of
file-system operations. -/
structure COut where
  outcome : Except CopyErr Unit
  fs : CopyFS
  trace : List Event
deriving Repr

/-- Sequence two copy-engine steps: an exception stops the flow, keeping the
state and trace accumulated so far. -/
def COut.seq (a : COut) (k : CopyFS → COut) : COut :=
  match a.outcome with
  | .error _ => a
  | .ok _ =>
    let b := k a.fs
    { outcome := b.outcome, fs := b.fs, trace := a.trace ++ b.trace }

/-- `savecopy._replace_file`: make the target directory, then rename
(`Path.replace`, a single rename, never copy-then-delete). -/
def replaceFile (fs : CopyFS) (src dst : FP) : COut :=
  let fs1 := fs.mkdir dst.dir
  match fs1.lookup src with
  | none => { outcome := .error .fileNotFound, fs := fs1, trace := [.mkdir dst.dir] }
  | some data =>
    { outcome := .ok (), fs := (fs1.remove src).write dst data,
      trace := [.mkdir dst.dir, .rename src dst] }

/-- One step of `savecopy._backup_save_files`: rename an existing file into
the sibling backup directory. -/
def backupOne (fs : CopyFS) (p? : Option FP) : COut :=
  match p? with
  | none => { outcome := .ok (), fs := fs, trace := [] }
  | some p => replaceFile fs p p.backup

def backupList (fs : CopyFS) : List (Option FP) → COut
  | [] => { outcome := .ok (), fs := fs, trace := [] }
  | p? :: rest => (backupOne fs p?).seq (fun fs1 => backupList fs1 rest)

/-- `savecopy._backup_save_files`: back up the present files, iterating the
fields in declaration order (eeprom, sram, flashram, mpk, mpks). -/
def backupSaveFiles (fs : CopyFS) (sf? : Option CopySaveFiles) : COut :=
  match sf? with
  | none => { outcome := .ok (), fs := fs, trace := [] }
  | some sf =>
    (backupOne fs sf.eeprom).seq fun fs1 =>
    (backupOne fs1 sf.sram).seq fun fs2 =>
    (backupOne fs2 sf.flashram).seq fun fs3 =>
    (backupOne fs3 sf.mpk).seq fun fs4 =>
    backupList fs4 sf.mpks

/-- `savecopy._copy_file`: skip when either path is `None`; otherwise make the
target directory, then either read-transform-write (when an endianness swap or
padding is needed — with a hard `OSError` when the data exceeds the pad size)
or plain-copy; `shutil.copystat` follows in both branches.  A missing source
file raises `FileNotFoundError` at read time. -/
def copyFile (fs : CopyFS) (src? dst? : Option FP) (swapEnd : Bool) (padTo : Option Nat) : COut :=
  match src?, dst? with
  | some src, some dst =>
    let fs1 := fs.mkdir dst.dir
    let t0 : List Event := [.mkdir dst.dir]
    if swapEnd || padTo.isSome then
      match fs1.lookup src with
      | none => { outcome := .error .fileNotFound, fs := fs1, trace := t0 }
      | some data0 =>
        match (if swapEnd then swap data0 else .ok data0) with
        | .error _ => { outcome := .error .invalidLength, fs := fs1, trace := t0 }
        | .ok data1 =>
          match padTo with
          | some n =>
            if data1.length > n then
              { outcome := .error .savefileTooLarge, fs := fs1, trace := t0 }
            else
              let d := data1 ++ List.replicate (n - data1.length) 0
              { outcome := .ok (), fs := fs1.write dst d,
                trace := t0 ++ [.write dst d, .copyStat src dst] }
          | none =>
            { outcome := .ok (), fs := fs1.write dst data1,
              trace := t0 ++ [.write dst data1, .copyStat src dst] }
    else
      match fs1.lookup src with
      | none => { outcome := .error .fileNotFound, fs := fs1, trace := t0 }
      | some data =>
        { outcome := .ok (), fs := fs1.write dst data,
          trace := t0 ++ [.copyFile src dst, .copyStat src dst] }
  | _, _ => { outcome := .ok (), fs := fs, trace := [] }

/-- One scalar key of `savecopy._copy_save_files`: the swap and pad decisions
from the configuration tables. -/
def copyKey (srcFmt dstFmt : SaveFormat) (k : CKey) (src? dst? : Option FP) (fs : CopyFS) : COut :=
  copyFile fs src? dst?
    (((littleEndianKeys srcFmt).contains k) != ((littleEndianKeys dstFmt).contains k))
    (padFor srcFmt k)

def copyPairs (fs : CopyFS) : List (Option FP × Option FP) → COut
  | [] => { outcome := .ok (), fs := fs, trace := [] }
  | (s, d) :: rest =>
    (copyFile fs s d false none).seq (fun fs1 => copyPairs fs1 rest)

/-- `savecopy._copy_save_files`: the scalar keys in field order, then the
four pak slots pairwise with neither swapping nor padding. -/
def copySaveFiles (srcFmt : SaveFormat) (srcF : CopySaveFiles) (dstFmt : SaveFormat)
    (dstF : CopySaveFiles) (fs : CopyFS) : COut :=
  (copyKey srcFmt dstFmt .eeprom srcF.eeprom dstF.eeprom fs).seq fun fs1 =>
  (copyKey srcFmt dstFmt .sram srcF.sram dstF.sram fs1).seq fun fs2 =>
  (copyKey srcFmt dstFmt .flashram srcF.flashram dstF.flashram fs2).seq fun fs3 =>
  (copyKey srcFmt dstFmt .mpk srcF.mpk dstF.mpk fs3).seq fun fs4 =>
  copyPairs fs4 (srcF.mpks.zip dstF.mpks)

/-- `savecopy._get_possible_save_files`: resolve the candidate paths for one
ROM and format.  `romId` stands for the external `get_rom_info` collaborator:
`none` when the ROM identity (internal name, little-endian MD5 hex) cannot be
computed. -/
def getPossibleSaveFiles (romId : FP → Option (String × String)) (fs : CopyFS)
    (romPath : FP) (fmt : SaveFormat) (savedir : List String) :
    Except CopyErr (Option CopySaveFiles) :=
  if ¬ fs.isFile romPath then .error .fileNotFound
  else
    match fmt with
    | .ED64 =>
      let g := romPath.stem
      .ok (some {
        eeprom := some { dir := savedir, stem := g, suffix := ".eep" },
        sram := some { dir := savedir, stem := g, suffix := ".srm" },
        flashram := some { dir := savedir, stem := g, suffix := ".fla" },
        mpk := some { dir := savedir, stem := g, suffix := ".mpk" },
        mpks := [some { dir := savedir, stem := g, suffix := "_Cont_1.mpk" },
                 some { dir := savedir, stem := g, suffix := "_Cont_2.mpk" },
                 some { dir := savedir, stem := g, suffix := "_Cont_3.mpk" },
                 some { dir := savedir, stem := g, suffix := "_Cont_4.mpk" }] })
    | .PJ64 =>
      match romId romPath with
      | none => .ok none
      | some (iname, md5) =>
        let d := savedir ++ [iname ++ "-" ++ md5.toUpper]
        .ok (some {
          eeprom := some { dir := d, stem := iname, suffix := ".eep" },
          sram := some { dir := d, stem := iname, suffix := ".sra" },
          flashram := some { dir := d, stem := iname, suffix := ".fla" },
          mpk := some { dir := d, stem := iname, suffix := ".mpk" },
          mpks := [some { dir := d, stem := iname, suffix := "_Cont_1.mpk" },
                   some { dir := d, stem := iname, suffix := "_Cont_2.mpk" },
                   some { dir := d, stem := iname, suffix := "_Cont_3.mpk" },
                   some { dir := d, stem := iname, suffix := "_Cont_4.mpk" }] })
    | .RETROARCH => .error .notImplemented

/-- `savecopy._get_actual_save_files`: keep only the paths that exist; a bare
pak together with an indexed pak is the ambiguous-layout hard error; all-absent
collapses to `None` (no save). -/
def getActualSaveFiles (romId : FP → Option (String × String)) (fs : CopyFS)
    (romPath : FP) (fmt : SaveFormat) (savedir : List String) :
    Except CopyErr (Option CopySaveFiles) :=
  if ¬ fs.isDir savedir then .ok none
  else
    match getPossibleSaveFiles romId fs romPath fmt savedir with
    | .error e => .error e
    | .ok none => .ok none
    | .ok (some pf) =>
      let keep : Option FP → Option FP := fun p? =>
        p?.bind (fun p => if fs.isFile p then some p else none)
      let af : CopySaveFiles := {
        eeprom := keep pf.eeprom,
        sram := keep pf.sram,
        flashram := keep pf.flashram,
        mpk := keep pf.mpk,
        mpks := pf.mpks.map keep }
      if af.mpk.isSome && !(af.mpks.filter (fun x => x.isSome)).isEmpty then
        .error .ambiguousPakLayout
      else if af = { mpks := [none, none, none, none] } then .ok none
      else .ok (some af)

/-- `savecopy.copy_saves_for_rom`: validate the ROM file and both
directories, resolve the source save files (stopping successfully when there
is no save), resolve the destination, back up the existing destination files,
then copy.  No comparison of the source and destination locations is
performed anywhere. -/
def copySavesForRom (romId : FP → Option (String × String)) (fs : CopyFS) (romPath : FP)
    (srcFmt : SaveFormat) (srcDir : List String)
    (dstFmt : SaveFormat) (dstDir : List String) : COut :=
  if ¬ fs.isFile romPath then { outcome := .error .fileNotFound, fs := fs, trace := [] }
  else if ¬ fs.isDir srcDir then { outcome := .error .fileNotFound, fs := fs, trace := [] }
  else if ¬ fs.isDir dstDir then { outcome := .error .fileNotFound, fs := fs, trace := [] }
  else
    match getActualSaveFiles romId fs romPath srcFmt srcDir with
    | .error e => { outcome := .error e, fs := fs, trace := [] }
    | .ok none => { outcome := .ok (), fs := fs, trace := [] }
    | .ok (some srcF) =>
      match getPossibleSaveFiles romId fs romPath dstFmt dstDir with
      | .error e => { outcome := .error e, fs := fs, trace := [] }
      | .ok dstPoss? =>
        match getActualSaveFiles romId fs romPath dstFmt dstDir with
        | .error e => { outcome := .error e, fs := fs, trace := [] }
        | .ok dstActual? =>
          (backupSaveFiles fs dstActual?).seq fun fs1 =>
            match dstPoss? with
            | none =>
              -- getattr(None, key) in _copy_save_files: AttributeError
              { outcome := .error .attrError, fs := fs1, trace := [] }
            | some dstF => copySaveFiles srcFmt srcF dstFmt dstF fs1

/-! ## savegame.py: the adapters on disk (with modification times) -/

structure FileEnt where
  data : List Nat
  mtime : Nat
deriving DecidableEq, Repr

/-- File-system state for the savegame.py engine: contents plus modification
time (nanoseconds) per file. -/
structure DiskFS where
  files : List (FP × FileEnt)
  dirs : List (List String)
deriving DecidableEq, Repr

def DiskFS.lookup (fs : DiskFS) (p : FP) : Option FileEnt :=
  (fs.files.find? (fun e => e.1 == p)).map (fun e => e.2)

def DiskFS.isFile (fs : DiskFS) (p : FP) : Bool :=
  (fs.lookup p).isSome

def DiskFS.isDir (fs : DiskFS) (d : List String) : Bool :=
  fs.dirs.contains d

def DiskFS.write (fs : DiskFS) (p : FP) (ent : FileEnt) : DiskFS :=
  { fs with files := (p, ent) :: fs.files.filter (fun e => !(e.1 == p)) }

def DiskFS.remove (fs : DiskFS) (p : FP) : DiskFS :=
  { fs with files := fs.files.filter (fun e => !(e.1 == p)) }

def DiskFS.mkdir (fs : DiskFS) (d : List String) : DiskFS :=
  { fs with dirs := d :: fs.dirs }

/-- `savegame._get_modified_timestamp`: `st_mtime_ns` of an existing file,
0 otherwise. -/
def modifiedTimestamp (fs : DiskFS) (p : FP) : Nat :=
  match fs.lookup p with
  | none => 0
  | some ent => ent.mtime

/-- `savegame._get_timestamp_for_newest_save_file` (and the repeated
`_set_timestamp_if_newer` of an import): the newest modification time among
the candidate files, 0 when none exists. -/
def newestTimestamp (fs : DiskFS) (ps : List FP) : Nat :=
  ps.foldl (fun acc p => max acc (modifiedTimestamp fs p)) 0

/-- The seven save files of `Everdrive64Savegame._get_save_files` in field
order: `.eep`, `.srm`, `.fla`, the bare `.mpk` for slot 1 and the indexed
`_Cont_i.mpk` for slots 2-4. -/
def edSaveFiles (stem : String) (dir : List String) : List FP :=
  [{ dir := dir, stem := stem, suffix := ".eep" },
   { dir := dir, stem := stem, suffix := ".srm" },
   { dir := dir, stem := stem, suffix := ".fla" },
   { dir := dir, stem := stem, suffix := ".mpk" },
   { dir := dir, stem := stem, suffix := "_Cont_2.mpk" },
   { dir := dir, stem := stem, suffix := "_Cont_3.mpk" },
   { dir := dir, stem := stem, suffix := "_Cont_4.mpk" }]

/-- `Everdrive64Savegame.import_from_disk` on a fresh savegame object. -/
def everdriveImportDisk (fs : DiskFS) (rom : FP) (savedir : List String) :
    Except String Savegame :=
  if ¬ fs.isFile rom then .error "Provided ROM path does not exist"
  else if ¬ fs.isDir savedir then .error "Provided save directory does not exist"
  else
    let rd : FP → Option (List Nat) := fun p => (fs.lookup p).map (fun e => e.data)
    let pe : FP := { dir := savedir, stem := rom.stem, suffix := ".eep" }
    let psr : FP := { dir := savedir, stem := rom.stem, suffix := ".srm" }
    let pf : FP := { dir := savedir, stem := rom.stem, suffix := ".fla" }
    let pm1 : FP := { dir := savedir, stem := rom.stem, suffix := ".mpk" }
    let pm2 : FP := { dir := savedir, stem := rom.stem, suffix := "_Cont_2.mpk" }
    let pm3 : FP := { dir := savedir, stem := rom.stem, suffix := "_Cont_3.mpk" }
    let pm4 : FP := { dir := savedir, stem := rom.stem, suffix := "_Cont_4.mpk" }
    .ok {
      eeprom := (rd pe).map (fun d => { data := d, endianness := .BIG_ENDIAN }),
      sram := (rd psr).map (fun d => { data := d, endianness := .BIG_ENDIAN }),
      flashram := (rd pf).map (fun d => { data := d, endianness := .BIG_ENDIAN }),
      mpk1 := (rd pm1).map (fun d => { data := d, endianness := .BIG_ENDIAN }),
      mpk2 := (rd pm2).map (fun d => { data := d, endianness := .BIG_ENDIAN }),
      mpk3 := (rd pm3).map (fun d => { data := d, endianness := .BIG_ENDIAN }),
      mpk4 := (rd pm4).map (fun d => { data := d, endianness := .BIG_ENDIAN }),
      timestamp := newestTimestamp fs [pe, psr, pf, pm1, pm2, pm3, pm4] }

/-- `Savegame._export_to_file` on disk: normalize the component, make the
directory, write the bytes (which stamps the current time `now`), then
`os.utime` immediately resets the modification time to the savegame
timestamp, which is the state the file is left in. -/
def exportToFileDisk (fs : DiskFS) (ts : Nat) (sd? : Option SaveData) (p : FP)
    (e : Endianness) : Except String (DiskFS × List Event) :=
  match sd? with
  | none => .ok (fs, [])
  | some sd =>
    match sd.setEndianness e with
    | .error msg => .error msg
    | .ok sd2 =>
      .ok ((fs.mkdir p.dir).write p { data := sd2.data, mtime := ts },
           [.mkdir p.dir, .write p sd2.data, .utime p ts])

/-- `savegame._backup_save_file`: rename an existing file into the sibling
backup directory (renaming preserves the modification time). -/
def backupSaveFileDisk (fs : DiskFS) (p : FP) : DiskFS × List Event :=
  match fs.lookup p with
  | none => (fs, [])
  | some ent =>
    let dst := p.backup
    (((fs.mkdir dst.dir).remove p).write dst ent, [.mkdir dst.dir, .rename p dst])

def backupSaveFilesDisk (fs : DiskFS) : List FP → DiskFS × List Event
  | [] => (fs, [])
  | p :: rest =>
    let (fs1, t1) := backupSaveFileDisk fs p
    let (fs2, t2) := backupSaveFilesDisk fs1 rest
    (fs2, t1 ++ t2)

def exportListDisk (fs : DiskFS) (ts : Nat) :
    List (Option SaveData × FP × Endianness) → Except String (DiskFS × List Event)
  | [] => .ok (fs, [])
  | (sd?, p, e) :: rest =>
    match exportToFileDisk fs ts sd? p e with
    | .error msg => .error msg
    | .ok (fs1, t1) =>
      match exportListDisk fs1 ts rest with
      | .error msg => .error msg
      | .ok (fs2, t2) => .ok (fs2, t1 ++ t2)

/-- `Everdrive64Savegame.export_to_disk`: unless forced, skip entirely when
the newest existing destination file is at least as new as the savegame
timestamp; otherwise back up (when requested) and write each present
component in big-endian order. -/
def everdriveExportDisk (fs : DiskFS) (s : Savegame) (rom : FP) (savedir : List String)
    (backup force : Bool) : Except String (DiskFS × List Event) :=
  if ¬ fs.isFile rom then .error "Provided ROM path does not exist"
  else if ¬ fs.isDir savedir then .error "Provided save directory does not exist"
  else
    let pe : FP := { dir := savedir, stem := rom.stem, suffix := ".eep" }
    let psr : FP := { dir := savedir, stem := rom.stem, suffix := ".srm" }
    let pf : FP := { dir := savedir, stem := rom.stem, suffix := ".fla" }
    let pm1 : FP := { dir := savedir, stem := rom.stem, suffix := ".mpk" }
    let pm2 : FP := { dir := savedir, stem := rom.stem, suffix := "_Cont_2.mpk" }
    let pm3 : FP := { dir := savedir, stem := rom.stem, suffix := "_Cont_3.mpk" }
    let pm4 : FP := { dir := savedir, stem := rom.stem, suffix := "_Cont_4.mpk" }
    let files := [pe, psr, pf, pm1, pm2, pm3, pm4]
    if !force && newestTimestamp fs files ≥ s.timestamp then .ok (fs, [])
    else
      let (fs1, t1) := if backup then backupSaveFilesDisk fs files else (fs, [])
      match exportListDisk fs1 s.timestamp
          [(s.eeprom, pe, .BIG_ENDIAN), (s.sram, psr, .BIG_ENDIAN),
           (s.flashram, pf, .BIG_ENDIAN), (s.mpk1, pm1, .BIG_ENDIAN),
           (s.mpk2, pm2, .BIG_ENDIAN), (s.mpk3, pm3, .BIG_ENDIAN),
           (s.mpk4, pm4, .BIG_ENDIAN)] with
      | .error msg => .error msg
      | .ok (fs2, t2) => .ok (fs2, t1 ++ t2)

/-- `Mupen64PlusSavegame.export_to_disk`: the skip guard compares the single
destination file; then back up (when requested), build the combined image and
write it as the one `.srm` file with the savegame timestamp. -/
def mupenExportDisk (fs : DiskFS) (s : Savegame) (rom : FP) (savedir : List String)
    (backup force : Bool) : Except String (DiskFS × List Event) :=
  if ¬ fs.isFile rom then .error "Provided ROM path does not exist"
  else if ¬ fs.isDir savedir then .error "Provided save directory does not exist"
  else
    let dst : FP := { dir := savedir, stem := rom.stem, suffix := ".srm" }
    if !force && fs.isFile dst && modifiedTimestamp fs dst ≥ s.timestamp then .ok (fs, [])
    else
      let (fs1, t1) := if backup then backupSaveFileDisk fs dst else (fs, [])
      match mupenExportData s with
      | .error msg => .error msg
      | .ok data =>
        .ok ((fs1.mkdir dst.dir).write dst { data := data, mtime := s.timestamp },
             t1 ++ [.mkdir dst.dir, .write dst data, .utime dst s.timestamp])

/-- One flash-cart to flash-cart conversion of one ROM through the savegame
adapters: import the source state (the cross-adapter
`import_from_savegame` deep copy is content-identity), then export it. -/
def convertEDtoED (fs : DiskFS) (rom : FP) (srcDir dstDir : List String)
    (backup force : Bool) : Except String (DiskFS × List Event) :=
  match everdriveImportDisk fs rom srcDir with
  | .error msg => .error msg
  | .ok s => everdriveExportDisk fs s rom dstDir backup force

/-- One flash-cart to combined-image conversion of one ROM through the
savegame adapters. -/
def convertEDtoMupen (fs : DiskFS) (rom : FP) (srcDir dstDir : List String)
    (backup force : Bool) : Except String (DiskFS × List Event) :=
  match everdriveImportDisk fs rom srcDir with
  | .error msg => .error msg
  | .ok s => mupenExportDisk fs s rom dstDir backup force

/-- Normalize a tagged buffer to little-endian byte order. -/
def SaveData.normalizeLittle (sd : SaveData) : List Nat :=
  match sd.endianness with
  | .LITTLE_ENDIAN => sd.data
  | .BIG_ENDIAN => swapChunks true true sd.data

/-- Componentwise semantic equality of two savegame states (the timestamp is
not a save component). -/
def compNormEq (a b : Savegame) : Prop :=
  normEq a.eeprom b.eeprom ∧ normEq a.sram b.sram ∧ normEq a.flashram b.flashram ∧
  normEq a.mpk1 b.mpk1 ∧ normEq a.mpk2 b.mpk2 ∧ normEq a.mpk3 b.mpk3 ∧ normEq a.mpk4 b.mpk4

/-- Events that put file content at a destination path (a plain write or a
whole-file copy). -/
def Event.isFileWrite : Event → Bool
  | .write _ _ => true
  | .copyFile _ _ => true
  | _ => false

def Event.isRename : Event → Bool
  | .rename _ _ => true
  | _ => false

/-- The present paths of a resolved save-file set, in the order the backup
step visits them. -/
def CopySaveFiles.presentFiles (sf : CopySaveFiles) : List FP :=
  sf.eeprom.toList ++ sf.sram.toList ++ sf.flashram.toList ++ sf.mpk.toList ++
  sf.mpks.filterMap id

/-! ## Lemmas about the byte-order normalizer -/

theorem swapChunks_length (bs hw : Bool) : ∀ l : List Nat, (swapChunks bs hw l).length = l.length
  | [] => by simp [swapChunks]
  | [a] => by simp [swapChunks]
  | [a, b] => by simp [swapChunks]
  | [a, b, c] => by simp [swapChunks]
  | a :: b :: c :: d :: rest => by
    have ih := swapChunks_length bs hw rest
    cases bs <;> cases hw <;> simp [swapChunks, ih]

theorem swapChunks_involutive (bs hw : Bool) :
    ∀ l : List Nat, l.length % 4 = 0 → swapChunks bs hw (swapChunks bs hw l) = l
  | [], _ => by simp [swapChunks]
  | [a], h => by simp at h
  | [a, b], h => by simp at h
  | [a, b, c], h => by simp at h
  | a :: b :: c :: d :: rest, h => by
    have hr : rest.length % 4 = 0 := by
      simp [List.length_cons] at h
      omega
    have ih := swapChunks_involutive bs hw rest hr
    cases bs <;> cases hw <;> simp [swapChunks, ih]

theorem swapChunks_replicate_zero (bs hw : Bool) (x : Nat) :
    ∀ k : Nat, swapChunks bs hw (List.replicate (4 * k) x) = List.replicate (4 * k) x := by
  intro k
  induction k with
  | zero => simp [swapChunks]
  | succ n ih =>
    have h4 : 4 * (n + 1) = (4 * n) + 4 := by ring
    have hrep : List.replicate (4 * (n + 1)) x =
        x :: x :: x :: x :: List.replicate (4 * n) x := by
      rw [h4]
      simp [List.replicate, Nat.add_comm (4 * n) 4]
    rw [hrep]
    cases bs <;> cases hw <;> simp [swapChunks, ih]

theorem length_four_destruct {α : Type} :
    ∀ c : List α, c.length = 4 → ∃ a b x d, c = [a, b, x, d]
  | [a, b, x, d], _ => ⟨a, b, x, d, rfl⟩
  | [], h => by simp at h
  | [a], h => by simp at h
  | [a, b], h => by simp at h
  | [a, b, c], h => by simp at h
  | a :: b :: c :: d :: e :: t, h => by simp [List.length_cons] at h

theorem join_length_mod_four :
    ∀ chunks : List (List Nat), (∀ c ∈ chunks, c.length = 4) → chunks.join.length % 4 = 0
  | [], _ => by simp
  | c :: rest, h => by
    have hc : c.length = 4 := h c (by simp)
    have ih := join_length_mod_four rest (fun x hx => h x (by simp [hx]))
    show (c ++ rest.join).length % 4 = 0
    rw [List.length_append, hc]
    omega

theorem swapChunks_join (bs hw : Bool) :
    ∀ chunks : List (List Nat), (∀ c ∈ chunks, c.length = 4) →
      swapChunks bs hw chunks.join =
        (chunks.map (fun c =>
          if bs then
            if hw then c.reverse else (c.take 2).reverse ++ (c.drop 2).reverse
          else
            if hw then c.drop 2 ++ c.take 2 else c)).join
  | [], _ => by simp [swapChunks]
  | c :: rest, h => by
    have hc : c.length = 4 := h c (by simp)
    have ih := swapChunks_join bs hw rest (fun x hx => h x (by simp [hx]))
    obtain ⟨a, b, x, d, rfl⟩ := length_four_destruct c hc
    cases bs <;> cases hw <;> simp [swapChunks, List.join, ih]

/-- C6.  The byte-order normalizer `byteswap.swap`, given a buffer that is a
concatenation of 4-byte groups, permutes each group in place: both flags give
the full reversal [0,1,2,3] to [3,2,1,0], byteswap only gives the adjacent
pair swap [0,1,2,3] to [1,0,3,2], halfwordswap only gives the half-word swap
[0,1,2,3] to [2,3,0,1], and neither flag leaves the buffer unchanged; a buffer
whose length is not a multiple of 4 is rejected with the IOError (raised
before any mutation), modelled as the error result. -/
theorem claim_C6_swap_contract :
    (∀ chunks : List (List Nat), (∀ c ∈ chunks, c.length = 4) →
      swap chunks.join true true = .ok ((chunks.map (fun c => c.reverse)).join) ∧
      swap chunks.join true false =
        .ok ((chunks.map (fun c => (c.take 2).reverse ++ (c.drop 2).reverse)).join) ∧
      swap chunks.join false true = .ok ((chunks.map (fun c => c.drop 2 ++ c.take 2)).join) ∧
      swap chunks.join false false = .ok chunks.join) ∧
    (∀ (l : List Nat) (bs hw : Bool), l.length % 4 ≠ 0 →
      swap l bs hw = .error "Expected bytearray to be a multiple of 4 bytes") := by
  constructor
  · intro chunks h
    have hmod := join_length_mod_four chunks h
    have hcond : ¬ chunks.join.length % 4 ≠ 0 := fun hc => hc hmod
    refine ⟨?_, ?_, ?_, ?_⟩
    · simp only [swap, if_neg hcond, swapChunks_join true true chunks h]
      simp
    · simp only [swap, if_neg hcond, swapChunks_join true false chunks h]
      simp
    · simp only [swap, if_neg hcond, swapChunks_join false true chunks h]
      simp
    · simp only [swap, if_neg hcond, swapChunks_join false false chunks h]
      simp
  · intro l bs hw h
    simp [swap, h]

/-- Witness for C6 at a concrete two-group buffer and a concrete misaligned
buffer. -/
theorem claim_C6_swap_contract_witness :
    swap [0, 1, 2, 3, 4, 5, 6, 7] true true = .ok [3, 2, 1, 0, 7, 6, 5, 4] ∧
    swap [0, 1, 2, 3, 4, 5, 6, 7] true false = .ok [1, 0, 3, 2, 5, 4, 7, 6] ∧
    swap [0, 1, 2, 3, 4, 5, 6, 7] false true = .ok [2, 3, 0, 1, 6, 7, 4, 5] ∧
    swap [0, 1, 2, 3, 4, 5, 6, 7] false false = .ok [0, 1, 2, 3, 4, 5, 6, 7] ∧
    swap [0, 1, 2] true true = .error "Expected bytearray to be a multiple of 4 bytes" := by
  have h := claim_C6_swap_contract
  have hj := h.1 [[0, 1, 2, 3], [4, 5, 6, 7]] (by decide)
  refine ⟨?_, ?_, ?_, ?_, h.2 [0, 1, 2] true true (by decide)⟩
  · simpa using hj.1
  · simpa using hj.2.1
  · simpa using hj.2.2.1
  · simpa using hj.2.2.2

/-- C10.  Applying the byte-order normalizer twice with the same flags, on a
buffer whose length is a multiple of 4, restores the original buffer: each
swap mode is an involution. -/
theorem claim_C10_swap_involution (l : List Nat) (bs hw : Bool) (h : l.length % 4 = 0) :
    (swap l bs hw).bind (fun r => swap r bs hw) = .ok l := by
  have h2 : (swapChunks bs hw l).length % 4 = 0 := by
    rw [swapChunks_length]
    exact h
  simp [swap, h, h2, Except.bind, swapChunks_involutive bs hw l h]

/-- Witness for C10 at a concrete 4-byte buffer with each flag combination. -/
theorem claim_C10_swap_involution_witness :
    (swap [9, 8, 7, 6] true true).bind (fun r => swap r true true) = .ok [9, 8, 7, 6] ∧
    (swap [9, 8, 7, 6] true false).bind (fun r => swap r true false) = .ok [9, 8, 7, 6] ∧
    (swap [9, 8, 7, 6] false true).bind (fun r => swap r false true) = .ok [9, 8, 7, 6] ∧
    (swap [9, 8, 7, 6] false false).bind (fun r => swap r false false) = .ok [9, 8, 7, 6] :=
  ⟨claim_C10_swap_involution [9, 8, 7, 6] true true (by decide),
   claim_C10_swap_involution [9, 8, 7, 6] true false (by decide),
   claim_C10_swap_involution [9, 8, 7, 6] false true (by decide),
   claim_C10_swap_involution [9, 8, 7, 6] false false (by decide)⟩

/-- C7.  The ROM identity resolver classifies a ROM image by its first byte
into exactly four byte-order layouts, returning the (byteswap, halfwordswap)
flags needed to reach the little-endian reference order used for hashing:
0x80 needs the full reversal (both flags), 0x37 the halfword swap only, 0x40
nothing, 0x12 the byte swap only; any other first byte is the hard
not-an-N64-ROM error. -/
theorem claim_C7_rom_first_byte :
    getSwappingNeededForLittleEndian 0x80 = .ok (true, true) ∧
    getSwappingNeededForLittleEndian 0x37 = .ok (false, true) ∧
    getSwappingNeededForLittleEndian 0x40 = .ok (false, false) ∧
    getSwappingNeededForLittleEndian 0x12 = .ok (true, false) ∧
    (∀ b : Nat, b ≠ 0x80 → b ≠ 0x37 → b ≠ 0x40 → b ≠ 0x12 →
      getSwappingNeededForLittleEndian b =
        .error "First byte of file does not match N64 ROM") := by
  refine ⟨rfl, rfl, rfl, rfl, ?_⟩
  intro b h1 h2 h3 h4
  simp [getSwappingNeededForLittleEndian, h1, h2, h3, h4]

/-- Witness for C7 at the concrete unrecognized first byte 0x13. -/
theorem claim_C7_rom_first_byte_witness :
    getSwappingNeededForLittleEndian 0x13 =
      .error "First byte of file does not match N64 ROM" :=
  claim_C7_rom_first_byte.2.2.2.2 0x13 (by decide) (by decide) (by decide) (by decide)

/-! ## Lemmas about the emptiness predicates -/

set_option maxRecDepth 100000 in
theorem formattedMPK_is_factory : isEffectivelyEmptyMemoryPak FORMATTED_MPK = true := by
  decide

set_option maxRecDepth 100000 in
theorem formattedMPK_length : FORMATTED_MPK.length = 32768 := by
  rw [FORMATTED_MPK, List.length_append, List.length_replicate]
  decide

theorem isEffectivelyEmptyMemoryPak_iff (data : List Nat) :
    isEffectivelyEmptyMemoryPak data = true ↔
      (data.take 258 = FORMATTED_MPK.take 258 ∧
       ∀ b ∈ (data.drop 266).take 246, b = 0 ∨ b = 3) := by
  simp [isEffectivelyEmptyMemoryPak, Bool.and_eq_true, List.all_eq_true]

/-- C8.  The factory-pak emptiness predicate holds exactly when the first 258
bytes match the canonical factory template and every byte of the checked
control region (offsets 0x10a up to 0x200) is 0 or 3; it accepts the
canonical template itself, and rejects any buffer holding a byte outside
both values at an offset in that range. -/
theorem claim_C8_factory_pak :
    (∀ data : List Nat, isEffectivelyEmptyMemoryPak data = true ↔
      (data.take 258 = FORMATTED_MPK.take 258 ∧
       ∀ b ∈ (data.drop 266).take 246, b = 0 ∨ b = 3)) ∧
    isEffectivelyEmptyMemoryPak FORMATTED_MPK = true ∧
    (∀ (data : List Nat) (i : Nat), 266 ≤ i → i < 512 →
      ∀ h : i < data.length, data.get ⟨i, h⟩ ≠ 0 → data.get ⟨i, h⟩ ≠ 3 →
        isEffectivelyEmptyMemoryPak data = false) := by
  refine ⟨isEffectivelyEmptyMemoryPak_iff, formattedMPK_is_factory, ?_⟩
  intro data i h266 h512 h hne0 hne3
  obtain ⟨j, rfl⟩ : ∃ j, i = 266 + j := ⟨i - 266, by omega⟩
  cases hp : isEffectivelyEmptyMemoryPak data with
  | false => rfl
  | true =>
    exfalso
    obtain ⟨-, hall⟩ := (isEffectivelyEmptyMemoryPak_iff data).mp hp
    have hj : j < ((data.drop 266).take 246).length := by
      simp only [List.length_take, List.length_drop]
      omega
    have hv : ((data.drop 266).take 246)[j] = data[266 + j] := by
      rw [List.getElem_take, List.getElem_drop]
    have hmem : data[266 + j] ∈ (data.drop 266).take 246 := by
      rw [← hv]
      exact List.getElem_mem hj
    rcases hall _ hmem with h0 | h3
    · exact hne0 (by simpa [List.get_eq_getElem] using h0)
    · exact hne3 (by simpa [List.get_eq_getElem] using h3)

/-- Witness for C8: a buffer holding 7 at offset 0x10a is rejected. -/
theorem claim_C8_factory_pak_witness :
    isEffectivelyEmptyMemoryPak (List.replicate 512 7) = false :=
  claim_C8_factory_pak.2.2 (List.replicate 512 7) 266 (by decide) (by decide)
    (by rw [List.length_replicate]; omega)
    (by rw [List.get_replicate]; decide)
    (by rw [List.get_replicate]; decide)

/-! ## Lemmas about normalization, packing and the emptiness predicates -/

theorem setEndianness_big_of (x : SaveData) (h : x.data.length % 4 = 0) :
    x.setEndianness .BIG_ENDIAN =
      .ok { data := x.normalizeBig, endianness := .BIG_ENDIAN } := by
  obtain ⟨d, e⟩ := x
  cases e <;>
    simp [SaveData.setEndianness, SaveData.normalizeBig, swap, h, Except.map]

theorem setEndianness_little_of (x : SaveData) (h : x.data.length % 4 = 0) :
    x.setEndianness .LITTLE_ENDIAN =
      .ok { data := x.normalizeLittle, endianness := .LITTLE_ENDIAN } := by
  obtain ⟨d, e⟩ := x
  cases e <;>
    simp [SaveData.setEndianness, SaveData.normalizeLittle, swap, h, Except.map]

theorem normalizeBig_length (x : SaveData) : x.normalizeBig.length = x.data.length := by
  obtain ⟨d, e⟩ := x
  cases e <;> simp [SaveData.normalizeBig, swapChunks_length]

theorem normalizeLittle_length (x : SaveData) : x.normalizeLittle.length = x.data.length := by
  obtain ⟨d, e⟩ := x
  cases e <;> simp [SaveData.normalizeLittle, swapChunks_length]

theorem normalizeBig_of_normalizeLittle (x : SaveData) (h : x.data.length % 4 = 0) :
    SaveData.normalizeBig { data := x.normalizeLittle, endianness := .LITTLE_ENDIAN } =
      x.normalizeBig := by
  obtain ⟨d, e⟩ := x
  cases e <;>
    simp [SaveData.normalizeBig, SaveData.normalizeLittle,
      swapChunks_involutive true true d h]

theorem packField_length (n : Nat) (d : List Nat) : (packField n d).length = n := by
  simp [packField, List.length_take]
  omega

theorem packField_self (n : Nat) (d : List Nat) (h : d.length = n) : packField n d = d := by
  subst h
  simp [packField]

theorem packField_of_le (n : Nat) (d : List Nat) (h : d.length ≤ n) :
    packField n d = d ++ List.replicate (n - d.length) 0 := by
  simp [packField, List.take_of_length_le h]

theorem packField_of_ge (n : Nat) (d : List Nat) (h : n ≤ d.length) :
    packField n d = d.take n := by
  simp [packField, Nat.sub_eq_zero_of_le h]

theorem isEmptyData_replicate (n x : Nat) (hx : x = 0 ∨ x = 255) :
    isEmptyData (List.replicate n x) = true := by
  cases n with
  | zero => rfl
  | succ m =>
    rw [List.replicate_succ]
    simp [isEmptyData, List.all_eq_true, List.mem_replicate]
    rcases hx with rfl | rfl <;> simp

theorem stripEmptyData_replicate (n x : Nat) (hx : x = 0 ∨ x = 255) :
    stripEmptyData (List.replicate n x) = none := by
  simp [stripEmptyData, isEmptyData_replicate n x hx]

theorem extract7 (f1 f2 f3 f4 f5 f6 f7 : List Nat)
    (h1 : f1.length = 2048) (h2 : f2.length = 32768) (h3 : f3.length = 32768)
    (h4 : f4.length = 32768) (h5 : f5.length = 32768) (h6 : f6.length = 32768)
    (h7 : f7.length = 131072) :
    (f1 ++ (f2 ++ (f3 ++ (f4 ++ (f5 ++ (f6 ++ f7)))))).length = 296960 ∧
    (f1 ++ (f2 ++ (f3 ++ (f4 ++ (f5 ++ (f6 ++ f7)))))).take 2048 = f1 ∧
    (f1 ++ (f2 ++ (f3 ++ (f4 ++ (f5 ++ (f6 ++ f7)))))).drop 2048 =
      f2 ++ (f3 ++ (f4 ++ (f5 ++ (f6 ++ f7)))) ∧
    (f1 ++ (f2 ++ (f3 ++ (f4 ++ (f5 ++ (f6 ++ f7)))))).drop 34816 =
      f3 ++ (f4 ++ (f5 ++ (f6 ++ f7))) ∧
    (f1 ++ (f2 ++ (f3 ++ (f4 ++ (f5 ++ (f6 ++ f7)))))).drop 67584 =
      f4 ++ (f5 ++ (f6 ++ f7)) ∧
    (f1 ++ (f2 ++ (f3 ++ (f4 ++ (f5 ++ (f6 ++ f7)))))).drop 100352 =
      f5 ++ (f6 ++ f7) ∧
    (f1 ++ (f2 ++ (f3 ++ (f4 ++ (f5 ++ (f6 ++ f7)))))).drop 133120 = f6 ++ f7 ∧
    (f1 ++ (f2 ++ (f3 ++ (f4 ++ (f5 ++ (f6 ++ f7)))))).drop 165888 = f7 := by
  have e2 : (f1 ++ (f2 ++ (f3 ++ (f4 ++ (f5 ++ (f6 ++ f7)))))).drop 2048 =
      f2 ++ (f3 ++ (f4 ++ (f5 ++ (f6 ++ f7)))) := List.drop_left' h1
  have e3 : (f1 ++ (f2 ++ (f3 ++ (f4 ++ (f5 ++ (f6 ++ f7)))))).drop 34816 =
      f3 ++ (f4 ++ (f5 ++ (f6 ++ f7))) := by
    rw [show (34816 : Nat) = 2048 + 32768 from rfl, ← List.drop_drop, e2,
      List.drop_left' h2]
  have e4 : (f1 ++ (f2 ++ (f3 ++ (f4 ++ (f5 ++ (f6 ++ f7)))))).drop 67584 =
      f4 ++ (f5 ++ (f6 ++ f7)) := by
    rw [show (67584 : Nat) = 34816 + 32768 from rfl, ← List.drop_drop, e3,
      List.drop_left' h3]
  have e5 : (f1 ++ (f2 ++ (f3 ++ (f4 ++ (f5 ++ (f6 ++ f7)))))).drop 100352 =
      f5 ++ (f6 ++ f7) := by
    rw [show (100352 : Nat) = 67584 + 32768 from rfl, ← List.drop_drop, e4,
      List.drop_left' h4]
  have e6 : (f1 ++ (f2 ++ (f3 ++ (f4 ++ (f5 ++ (f6 ++ f7)))))).drop 133120 = f6 ++ f7 := by
    rw [show (133120 : Nat) = 100352 + 32768 from rfl, ← List.drop_drop, e5,
      List.drop_left' h5]
  have e7 : (f1 ++ (f2 ++ (f3 ++ (f4 ++ (f5 ++ (f6 ++ f7)))))).drop 165888 = f7 := by
    rw [show (165888 : Nat) = 133120 + 32768 from rfl, ← List.drop_drop, e6,
      List.drop_left' h6]
  refine ⟨?_, List.take_left' h1, e2, e3, e4, e5, e6, e7⟩
  simp [List.length_append, h1, h2, h3, h4, h5, h6, h7]

theorem getD_aligned (o : Option SaveData) (d0 : List Nat) (e0 : Endianness)
    (ho : ∀ sd, o = some sd → sd.data.length % 4 = 0) (hd : d0.length % 4 = 0) :
    (o.getD { data := d0, endianness := e0 }).data.length % 4 = 0 := by
  cases o with
  | none => simpa using hd
  | some sd => simpa using ho sd rfl

theorem formattedMPK_aligned : FORMATTED_MPK.length % 4 = 0 := by
  rw [formattedMPK_length]

/-- The combined-image export succeeds on word-aligned components and packs
the seven normalized fields back to back. -/
theorem mupenExportData_eq (s : Savegame)
    (hE : ∀ sd, s.eeprom = some sd → sd.data.length % 4 = 0)
    (hS : ∀ sd, s.sram = some sd → sd.data.length % 4 = 0)
    (hF : ∀ sd, s.flashram = some sd → sd.data.length % 4 = 0)
    (hM1 : ∀ sd, s.mpk1 = some sd → sd.data.length % 4 = 0)
    (hM2 : ∀ sd, s.mpk2 = some sd → sd.data.length % 4 = 0)
    (hM3 : ∀ sd, s.mpk3 = some sd → sd.data.length % 4 = 0)
    (hM4 : ∀ sd, s.mpk4 = some sd → sd.data.length % 4 = 0) :
    mupenExportData s = .ok (
      packField 2048 ((s.eeprom.getD { data := [], endianness := .BIG_ENDIAN }).normalizeBig) ++
      (packField 32768 ((s.mpk1.getD { data := FORMATTED_MPK, endianness := .BIG_ENDIAN }).normalizeBig) ++
      (packField 32768 ((s.mpk2.getD { data := FORMATTED_MPK, endianness := .BIG_ENDIAN }).normalizeBig) ++
      (packField 32768 ((s.mpk3.getD { data := FORMATTED_MPK, endianness := .BIG_ENDIAN }).normalizeBig) ++
      (packField 32768 ((s.mpk4.getD { data := FORMATTED_MPK, endianness := .BIG_ENDIAN }).normalizeBig) ++
      (packField 32768 ((s.sram.getD
        { data := List.replicate 32768 255, endianness := .LITTLE_ENDIAN }).normalizeLittle) ++
      packField 131072 ((s.flashram.getD
        { data := List.replicate 131072 255, endianness := .LITTLE_ENDIAN }).normalizeLittle))))))) := by
  have hRep32 : (List.replicate 32768 (255 : Nat)).length % 4 = 0 := by
    rw [List.length_replicate]
  have hRep131 : (List.replicate 131072 (255 : Nat)).length % 4 = 0 := by
    rw [List.length_replicate]
  have aE := getD_aligned s.eeprom [] .BIG_ENDIAN hE (by decide)
  have aS := getD_aligned s.sram (List.replicate 32768 255) .LITTLE_ENDIAN hS hRep32
  have aF := getD_aligned s.flashram (List.replicate 131072 255) .LITTLE_ENDIAN hF hRep131
  have aM1 := getD_aligned s.mpk1 FORMATTED_MPK .BIG_ENDIAN hM1 formattedMPK_aligned
  have aM2 := getD_aligned s.mpk2 FORMATTED_MPK .BIG_ENDIAN hM2 formattedMPK_aligned
  have aM3 := getD_aligned s.mpk3 FORMATTED_MPK .BIG_ENDIAN hM3 formattedMPK_aligned
  have aM4 := getD_aligned s.mpk4 FORMATTED_MPK .BIG_ENDIAN hM4 formattedMPK_aligned
  simp only [mupenExportData, SRAM_BYTESIZE, FLASHRAM_BYTESIZE, MPK_BYTESIZE,
    setEndianness_big_of _ aE, setEndianness_little_of _ aS, setEndianness_little_of _ aF,
    setEndianness_big_of _ aM1, setEndianness_big_of _ aM2, setEndianness_big_of _ aM3,
    setEndianness_big_of _ aM4]
  simp only [List.append_assoc]
  rfl

/-- The combined-image import of a well-shaped seven-field image unpacks the
fields and applies the emptiness predicates to each. -/
theorem mupenImportData_fields (f1 f2 f3 f4 f5 f6 f7 : List Nat)
    (h1 : f1.length = 2048) (h2 : f2.length = 32768) (h3 : f3.length = 32768)
    (h4 : f4.length = 32768) (h5 : f5.length = 32768) (h6 : f6.length = 32768)
    (h7 : f7.length = 131072) :
    mupenImportData (f1 ++ (f2 ++ (f3 ++ (f4 ++ (f5 ++ (f6 ++ f7)))))) = .ok {
      eeprom := (stripEmptyData f1).map (fun e =>
        { data := if isEmptyData ((e.drop 512).take 1536) then e.take 512 else e,
          endianness := .BIG_ENDIAN }),
      sram := (stripEmptyData f6).map (fun d => { data := d, endianness := .LITTLE_ENDIAN }),
      flashram := (stripEmptyData f7).map (fun d =>
        { data := d, endianness := .LITTLE_ENDIAN }),
      mpk1 := mpkToSavegameData f2,
      mpk2 := mpkToSavegameData f3,
      mpk3 := mpkToSavegameData f4,
      mpk4 := mpkToSavegameData f5,
      timestamp := 0 } := by
  obtain ⟨hlen, ht1, hd2, hd3, hd4, hd5, hd6, hd7⟩ :=
    extract7 f1 f2 f3 f4 f5 f6 f7 h1 h2 h3 h4 h5 h6 h7
  have hne : ¬ ((f1 ++ (f2 ++ (f3 ++ (f4 ++ (f5 ++ (f6 ++ f7)))))).length ≠ 296960) :=
    fun hc => hc hlen
  simp only [mupenImportData, if_neg hne, MPK_BYTESIZE, SRAM_BYTESIZE, FLASHRAM_BYTESIZE]
  rw [ht1, hd2, hd3, hd4, hd5, hd6, hd7, List.take_left' h2, List.take_left' h3,
    List.take_left' h4, List.take_left' h5, List.take_left' h6, ← h7, List.take_length]

theorem exportComp_big (o : Option SaveData)
    (ho : ∀ sd, o = some sd → sd.data.length % 4 = 0) :
    exportComp o .BIG_ENDIAN = .ok (o.map (fun sd => sd.normalizeBig)) := by
  cases o with
  | none => rfl
  | some sd => simp [exportComp, setEndianness_big_of sd (ho sd rfl), Except.map]

theorem exportComp_little (o : Option SaveData)
    (ho : ∀ sd, o = some sd → sd.data.length % 4 = 0) :
    exportComp o .LITTLE_ENDIAN = .ok (o.map (fun sd => sd.normalizeLittle)) := by
  cases o with
  | none => rfl
  | some sd => simp [exportComp, setEndianness_little_of sd (ho sd rfl), Except.map]

/-- The flash-cart export succeeds on word-aligned components: every present
component becomes its big-endian bytes. -/
theorem everdriveExportFiles_eq (s : Savegame)
    (hE : ∀ sd, s.eeprom = some sd → sd.data.length % 4 = 0)
    (hS : ∀ sd, s.sram = some sd → sd.data.length % 4 = 0)
    (hF : ∀ sd, s.flashram = some sd → sd.data.length % 4 = 0)
    (hM1 : ∀ sd, s.mpk1 = some sd → sd.data.length % 4 = 0)
    (hM2 : ∀ sd, s.mpk2 = some sd → sd.data.length % 4 = 0)
    (hM3 : ∀ sd, s.mpk3 = some sd → sd.data.length % 4 = 0)
    (hM4 : ∀ sd, s.mpk4 = some sd → sd.data.length % 4 = 0) :
    everdriveExportFiles s = .ok {
      eeprom := s.eeprom.map (fun sd => sd.normalizeBig),
      sram := s.sram.map (fun sd => sd.normalizeBig),
      flashram := s.flashram.map (fun sd => sd.normalizeBig),
      mpk1 := s.mpk1.map (fun sd => sd.normalizeBig),
      mpk2 := s.mpk2.map (fun sd => sd.normalizeBig),
      mpk3 := s.mpk3.map (fun sd => sd.normalizeBig),
      mpk4 := s.mpk4.map (fun sd => sd.normalizeBig) } := by
  simp only [everdriveExportFiles, exportComp_big _ hE, exportComp_big _ hS,
    exportComp_big _ hF, exportComp_big _ hM1, exportComp_big _ hM2,
    exportComp_big _ hM3, exportComp_big _ hM4]
  rfl

/-- The Project64 export succeeds on word-aligned components: SRAM and
FlashRAM become their little-endian bytes, the rest big-endian. -/
theorem project64ExportFiles_eq (s : Savegame)
    (hE : ∀ sd, s.eeprom = some sd → sd.data.length % 4 = 0)
    (hS : ∀ sd, s.sram = some sd → sd.data.length % 4 = 0)
    (hF : ∀ sd, s.flashram = some sd → sd.data.length % 4 = 0)
    (hM1 : ∀ sd, s.mpk1 = some sd → sd.data.length % 4 = 0)
    (hM2 : ∀ sd, s.mpk2 = some sd → sd.data.length % 4 = 0)
    (hM3 : ∀ sd, s.mpk3 = some sd → sd.data.length % 4 = 0)
    (hM4 : ∀ sd, s.mpk4 = some sd → sd.data.length % 4 = 0) :
    project64ExportFiles s = .ok {
      eeprom := s.eeprom.map (fun sd => sd.normalizeBig),
      sram := s.sram.map (fun sd => sd.normalizeLittle),
      flashram := s.flashram.map (fun sd => sd.normalizeLittle),
      mpk1 := s.mpk1.map (fun sd => sd.normalizeBig),
      mpk2 := s.mpk2.map (fun sd => sd.normalizeBig),
      mpk3 := s.mpk3.map (fun sd => sd.normalizeBig),
      mpk4 := s.mpk4.map (fun sd => sd.normalizeBig) } := by
  simp only [project64ExportFiles, exportComp_big _ hE, exportComp_little _ hS,
    exportComp_little _ hF, exportComp_big _ hM1, exportComp_big _ hM2,
    exportComp_big _ hM3, exportComp_big _ hM4]
  rfl

theorem normalizeBig_big (d : List Nat) :
    SaveData.normalizeBig { data := d, endianness := .BIG_ENDIAN } = d := rfl

theorem normalizeBig_little (d : List Nat) :
    SaveData.normalizeBig { data := d, endianness := .LITTLE_ENDIAN } =
      swapChunks true true d := rfl

theorem normalizeLittle_big (d : List Nat) :
    SaveData.normalizeLittle { data := d, endianness := .BIG_ENDIAN } =
      swapChunks true true d := rfl

theorem normalizeLittle_little (d : List Nat) :
    SaveData.normalizeLittle { data := d, endianness := .LITTLE_ENDIAN } = d := rfl
theorem map_big_aligned (o : Option (List Nat))
    (h : ∀ d, o = some d → d.length % 4 = 0) :
    ∀ sd, o.map (fun d => ({ data := d, endianness := .BIG_ENDIAN } : SaveData)) = some sd →
      sd.data.length % 4 = 0 := by
  intro sd hsd
  cases o with
  | none => simp at hsd
  | some d =>
    rw [Option.map_some'] at hsd
    rw [Option.some.injEq] at hsd
    rw [← hsd]
    exact h d rfl

/-- C1.  Importing a flash-cart save whose EEPROM file holds "eepr" (512
bytes), whose four pak files hold "mpk1".."mpk4" (32768 bytes each), whose
SRAM file holds "sram" (32768 bytes) and whose FlashRAM file holds "flas"
(131072 bytes), and exporting it to the combined (Mupen64Plus) image,
produces exactly 296960 bytes with "eepr" at 0, "mpk1" at 0x800, "mpk2" at
0x8800, "mpk3" at 0x10800, "mpk4" at 0x18800, "mars" at 0x20800 and "salf"
at 0x28800 (the little-endian 4-byte reversals of "sram" and "flas"). -/
theorem claim_C1_end_to_end :
    ∃ b : List Nat,
      mupenExportData (everdriveImportFiles {
        eeprom := some (101 :: 101 :: 112 :: 114 :: List.replicate 508 0),
        sram := some (115 :: 114 :: 97 :: 109 :: List.replicate 32764 0),
        flashram := some (102 :: 108 :: 97 :: 115 :: List.replicate 131068 0),
        mpk1 := some (109 :: 112 :: 107 :: 49 :: List.replicate 32764 0),
        mpk2 := some (109 :: 112 :: 107 :: 50 :: List.replicate 32764 0),
        mpk3 := some (109 :: 112 :: 107 :: 51 :: List.replicate 32764 0),
        mpk4 := some (109 :: 112 :: 107 :: 52 :: List.replicate 32764 0) }) = .ok b ∧
      b.length = 296960 ∧
      b.take 4 = [101, 101, 112, 114] ∧
      (b.drop 0x800).take 4 = [109, 112, 107, 49] ∧
      (b.drop 0x8800).take 4 = [109, 112, 107, 50] ∧
      (b.drop 0x10800).take 4 = [109, 112, 107, 51] ∧
      (b.drop 0x18800).take 4 = [109, 112, 107, 52] ∧
      (b.drop 0x20800).take 4 = [109, 97, 114, 115] ∧
      (b.drop 0x28800).take 4 = [115, 97, 108, 102] := by
  have lenOf : ∀ (a b c e : Nat) (k : Nat) (d : List Nat),
      some (a :: b :: c :: e :: List.replicate k (0 : Nat)) = some d →
      d.length % 4 = 0 → True := fun _ _ _ _ _ _ _ _ => trivial
  have mk4 : ∀ (a b c e k : Nat), (k % 4 = 0) → ∀ d : List Nat,
      some (a :: b :: c :: e :: List.replicate k (0 : Nat)) = some d →
      d.length % 4 = 0 := by
    intro a b c e k hk d hd
    injection hd with h
    rw [← h]
    rw [List.length_cons, List.length_cons, List.length_cons, List.length_cons,
      List.length_replicate]
    omega
  have hexp := mupenExportData_eq (everdriveImportFiles {
      eeprom := some (101 :: 101 :: 112 :: 114 :: List.replicate 508 0),
      sram := some (115 :: 114 :: 97 :: 109 :: List.replicate 32764 0),
      flashram := some (102 :: 108 :: 97 :: 115 :: List.replicate 131068 0),
      mpk1 := some (109 :: 112 :: 107 :: 49 :: List.replicate 32764 0),
      mpk2 := some (109 :: 112 :: 107 :: 50 :: List.replicate 32764 0),
      mpk3 := some (109 :: 112 :: 107 :: 51 :: List.replicate 32764 0),
      mpk4 := some (109 :: 112 :: 107 :: 52 :: List.replicate 32764 0) })
    (map_big_aligned _ (mk4 101 101 112 114 508 (by norm_num)))
    (map_big_aligned _ (mk4 115 114 97 109 32764 (by norm_num)))
    (map_big_aligned _ (mk4 102 108 97 115 131068 (by norm_num)))
    (map_big_aligned _ (mk4 109 112 107 49 32764 (by norm_num)))
    (map_big_aligned _ (mk4 109 112 107 50 32764 (by norm_num)))
    (map_big_aligned _ (mk4 109 112 107 51 32764 (by norm_num)))
    (map_big_aligned _ (mk4 109 112 107 52 32764 (by norm_num)))
  clear lenOf mk4
  rw [show List.replicate 32764 (0 : Nat) = List.replicate (4 * 8191) 0 from by norm_num] at hexp
  rw [show List.replicate 131068 (0 : Nat) = List.replicate (4 * 32767) 0 from by norm_num] at hexp
  have hswapS : swapChunks true true
      (115 :: 114 :: 97 :: 109 :: List.replicate (4 * 8191) (0 : Nat)) =
      109 :: 97 :: 114 :: 115 :: List.replicate (4 * 8191) 0 := by
    show [109, 97, 114, 115] ++ swapChunks true true (List.replicate (4 * 8191) 0) = _
    rw [swapChunks_replicate_zero]
    rfl
  have hswapF : swapChunks true true
      (102 :: 108 :: 97 :: 115 :: List.replicate (4 * 32767) (0 : Nat)) =
      115 :: 97 :: 108 :: 102 :: List.replicate (4 * 32767) 0 := by
    show [115, 97, 108, 102] ++ swapChunks true true (List.replicate (4 * 32767) 0) = _
    rw [swapChunks_replicate_zero]
    rfl
  simp only [everdriveImportFiles, Option.map_some', Option.getD_some,
    normalizeBig_big, normalizeLittle_big, -List.reduceReplicate] at hexp
  rw [hswapS, hswapF] at hexp
  have mkLen : ∀ (a b c e k : Nat),
      (a :: b :: c :: e :: List.replicate k (0 : Nat)).length = k + 4 := by
    intro a b c e k
    rw [List.length_cons, List.length_cons, List.length_cons, List.length_cons,
      List.length_replicate]
  rw [packField_of_le 2048 _ (by rw [mkLen]; omega)] at hexp
  rw [mkLen 101 101 112 114 508] at hexp
  rw [show (2048 - (508 + 4) : Nat) = 1536 from by norm_num] at hexp
  rw [packField_self 32768 (109 :: 112 :: 107 :: 49 :: List.replicate (4 * 8191) 0)
    (by rw [mkLen])] at hexp
  rw [packField_self 32768 (109 :: 112 :: 107 :: 50 :: List.replicate (4 * 8191) 0)
    (by rw [mkLen])] at hexp
  rw [packField_self 32768 (109 :: 112 :: 107 :: 51 :: List.replicate (4 * 8191) 0)
    (by rw [mkLen])] at hexp
  rw [packField_self 32768 (109 :: 112 :: 107 :: 52 :: List.replicate (4 * 8191) 0)
    (by rw [mkLen])] at hexp
  rw [packField_self 32768 (109 :: 97 :: 114 :: 115 :: List.replicate (4 * 8191) 0)
    (by rw [mkLen])] at hexp
  rw [packField_self 131072 (115 :: 97 :: 108 :: 102 :: List.replicate (4 * 32767) 0)
    (by rw [mkLen])] at hexp
  have hx := extract7
    ((101 :: 101 :: 112 :: 114 :: List.replicate 508 0) ++ List.replicate 1536 0)
    (109 :: 112 :: 107 :: 49 :: List.replicate (4 * 8191) 0)
    (109 :: 112 :: 107 :: 50 :: List.replicate (4 * 8191) 0)
    (109 :: 112 :: 107 :: 51 :: List.replicate (4 * 8191) 0)
    (109 :: 112 :: 107 :: 52 :: List.replicate (4 * 8191) 0)
    (109 :: 97 :: 114 :: 115 :: List.replicate (4 * 8191) 0)
    (115 :: 97 :: 108 :: 102 :: List.replicate (4 * 32767) 0)
    (by rw [List.length_append, mkLen, List.length_replicate])
    (by rw [mkLen]) (by rw [mkLen]) (by rw [mkLen]) (by rw [mkLen])
    (by rw [mkLen]) (by rw [mkLen])
  obtain ⟨hlen, -, hd2, hd3, hd4, hd5, hd6, hd7⟩ := hx
  simp only [everdriveImportFiles, Option.map_some', -List.reduceReplicate]
  rw [show List.replicate 32764 (0 : Nat) = List.replicate (4 * 8191) 0 from by norm_num,
    show List.replicate 131068 (0 : Nat) = List.replicate (4 * 32767) 0 from by norm_num]
  refine ⟨_, hexp, hlen, ?_, ?_, ?_, ?_, ?_, ?_, ?_⟩
  · decide
  · rw [show (0x800 : Nat) = 2048 from rfl, hd2]
    decide
  · rw [show (0x8800 : Nat) = 34816 from rfl, hd3]
    decide
  · rw [show (0x10800 : Nat) = 67584 from rfl, hd4]
    decide
  · rw [show (0x18800 : Nat) = 100352 from rfl, hd5]
    decide
  · rw [show (0x20800 : Nat) = 133120 from rfl, hd6]
    decide
  · rw [show (0x28800 : Nat) = 165888 from rfl, hd7]
    decide

/-! ## Per-component round-trip lemmas for the combined-image adapter -/

theorem len_cons4_replicate (a b c e k x : Nat) :
    (a :: b :: c :: e :: List.replicate k x).length = k + 4 := by
  rw [List.length_cons, List.length_cons, List.length_cons, List.length_cons,
    List.length_replicate]

theorem take_replicate_all (n : Nat) (x : Nat) :
    (List.replicate n x).take n = List.replicate n x := by
  rw [List.take_replicate, Nat.min_self]

/-- A 512-byte EEPROM survives the combined-image import: the zero padding is
recognized as empty and trimmed back off. -/
theorem mupen_import_eeprom_512 (nd : List Nat) (h512 : nd.length = 512)
    (hne : isEmptyData (nd ++ List.replicate 1536 0) = false) :
    (stripEmptyData (packField 2048 nd)).map (fun e =>
      ({ data := if isEmptyData ((e.drop 512).take 1536) then e.take 512 else e,
         endianness := .BIG_ENDIAN } : SaveData)) =
      some { data := nd, endianness := .BIG_ENDIAN } := by
  rw [packField_of_le 2048 nd (by omega), h512]
  rw [show (2048 - 512 : Nat) = 1536 from rfl]
  rw [stripEmptyData, hne]
  rw [if_neg Bool.false_ne_true]
  rw [Option.map_some']
  rw [List.drop_left' h512, take_replicate_all]
  rw [if_pos (isEmptyData_replicate 1536 0 (Or.inl rfl))]
  rw [List.take_left' h512]

/-- A 2048-byte EEPROM whose upper half is not uniform-fill survives the
combined-image import untrimmed. -/
theorem mupen_import_eeprom_2048 (nd : List Nat) (h2048 : nd.length = 2048)
    (hne : isEmptyData nd = false)
    (htail : isEmptyData ((nd.drop 512).take 1536) = false) :
    (stripEmptyData (packField 2048 nd)).map (fun e =>
      ({ data := if isEmptyData ((e.drop 512).take 1536) then e.take 512 else e,
         endianness := .BIG_ENDIAN } : SaveData)) =
      some { data := nd, endianness := .BIG_ENDIAN } := by
  rw [packField_self 2048 nd h2048]
  rw [stripEmptyData, hne]
  rw [if_neg Bool.false_ne_true]
  rw [Option.map_some']
  rw [htail]
  rw [if_neg Bool.false_ne_true]

/-- An absent EEPROM is synthesized as all-zero padding and re-classified as
absent on import. -/
theorem mupen_import_eeprom_none :
    (stripEmptyData (packField 2048 ([] : List Nat))).map (fun e =>
      ({ data := if isEmptyData ((e.drop 512).take 1536) then e.take 512 else e,
         endianness := .BIG_ENDIAN } : SaveData)) = none := by
  rw [show packField 2048 ([] : List Nat) = List.replicate 2048 0 from rfl]
  rw [stripEmptyData_replicate 2048 0 (Or.inl rfl)]
  rfl

/-- A full-size non-uniform region survives the combined-image import as a
little-endian component. -/
theorem mupen_import_region (n : Nat) (nd : List Nat) (hn : nd.length = n)
    (hne : isEmptyData nd = false) :
    (stripEmptyData (packField n nd)).map (fun d =>
      ({ data := d, endianness := .LITTLE_ENDIAN } : SaveData)) =
      some { data := nd, endianness := .LITTLE_ENDIAN } := by
  rw [packField_self n nd hn]
  rw [stripEmptyData, hne]
  rw [if_neg Bool.false_ne_true]
  rw [Option.map_some']

/-- An absent region synthesized as all-0xFF fill is re-classified as absent
on import. -/
theorem mupen_import_region_none (n : Nat) :
    (stripEmptyData (packField n (List.replicate n 255))).map (fun d =>
      ({ data := d, endianness := .LITTLE_ENDIAN } : SaveData)) = none := by
  rw [packField_self n _ (List.length_replicate n 255)]
  rw [stripEmptyData_replicate n 255 (Or.inr rfl)]
  rfl

/-- A full-size non-factory pak survives the combined-image import. -/
theorem mupen_import_mpk (nd : List Nat) (hn : nd.length = 32768)
    (hne : isEffectivelyEmptyMemoryPak nd = false) :
    mpkToSavegameData (packField 32768 nd) =
      some { data := nd, endianness := .BIG_ENDIAN } := by
  rw [packField_self 32768 nd hn]
  rw [mpkToSavegameData, hne]
  rw [if_neg Bool.false_ne_true]

/-- An absent pak synthesized from the factory template is re-classified as
absent on import. -/
theorem mupen_import_mpk_none :
    mpkToSavegameData (packField 32768 FORMATTED_MPK) = none := by
  rw [packField_self 32768 FORMATTED_MPK formattedMPK_length]
  rw [mpkToSavegameData, formattedMPK_is_factory]
  rw [if_pos rfl]

/-- C2 (amended).  For each of the three adapters, exporting a save state and
re-importing the result reconstructs every present component bit-identically
after normalizing byte order, and reconstructs every absent component as
absent, provided each present component has the fixed size its on-disk format
requires and its content is not (re-)classified empty by the emptiness
predicates (EEPROM of 512 or 2048 bytes, with a 2048-byte EEPROM additionally
not uniform in its upper half; regions not uniform 0x00/0xFF; paks not
factory-equivalent). -/
theorem claim_C2_roundtrip (s : Savegame)
    (hE : ∀ sd, s.eeprom = some sd →
      (sd.data.length = 512 ∧
        isEmptyData (sd.normalizeBig ++ List.replicate 1536 0) = false) ∨
      (sd.data.length = 2048 ∧ isEmptyData sd.normalizeBig = false ∧
        isEmptyData ((sd.normalizeBig.drop 512).take 1536) = false))
    (hS : ∀ sd, s.sram = some sd → sd.data.length = 32768 ∧
      isEmptyData sd.normalizeLittle = false)
    (hF : ∀ sd, s.flashram = some sd → sd.data.length = 131072 ∧
      isEmptyData sd.normalizeLittle = false)
    (hM1 : ∀ sd, s.mpk1 = some sd → sd.data.length = 32768 ∧
      isEffectivelyEmptyMemoryPak sd.normalizeBig = false)
    (hM2 : ∀ sd, s.mpk2 = some sd → sd.data.length = 32768 ∧
      isEffectivelyEmptyMemoryPak sd.normalizeBig = false)
    (hM3 : ∀ sd, s.mpk3 = some sd → sd.data.length = 32768 ∧
      isEffectivelyEmptyMemoryPak sd.normalizeBig = false)
    (hM4 : ∀ sd, s.mpk4 = some sd → sd.data.length = 32768 ∧
      isEffectivelyEmptyMemoryPak sd.normalizeBig = false) :
    (∃ f, everdriveExportFiles s = .ok f ∧
      compNormEq (everdriveImportFiles f) s) ∧
    (∃ f, project64ExportFiles s = .ok f ∧
      compNormEq (project64ImportFiles f) s) ∧
    (∃ b s2, mupenExportData s = .ok b ∧ mupenImportData b = .ok s2 ∧
      compNormEq s2 s) := by
  have alE : ∀ sd, s.eeprom = some sd → sd.data.length % 4 = 0 := by
    intro sd h
    rcases hE sd h with ⟨h5, -⟩ | ⟨h2, -, -⟩
    · rw [h5]
    · rw [h2]
  have alS : ∀ sd, s.sram = some sd → sd.data.length % 4 = 0 := by
    intro sd h
    rw [(hS sd h).1]
  have alF : ∀ sd, s.flashram = some sd → sd.data.length % 4 = 0 := by
    intro sd h
    rw [(hF sd h).1]
  have alM1 : ∀ sd, s.mpk1 = some sd → sd.data.length % 4 = 0 := by
    intro sd h
    rw [(hM1 sd h).1]
  have alM2 : ∀ sd, s.mpk2 = some sd → sd.data.length % 4 = 0 := by
    intro sd h
    rw [(hM2 sd h).1]
  have alM3 : ∀ sd, s.mpk3 = some sd → sd.data.length % 4 = 0 := by
    intro sd h
    rw [(hM3 sd h).1]
  have alM4 : ∀ sd, s.mpk4 = some sd → sd.data.length % 4 = 0 := by
    intro sd h
    rw [(hM4 sd h).1]
  refine ⟨?_, ?_, ?_⟩
  · -- flash-cart round trip: everything big-endian, no emptiness filtering
    refine ⟨_, everdriveExportFiles_eq s alE alS alF alM1 alM2 alM3 alM4, ?_⟩
    refine ⟨?_, ?_, ?_, ?_, ?_, ?_, ?_⟩
    · simp only [everdriveImportFiles]
      cases hsd : s.eeprom with
      | none => simp only [hsd, Option.map_none']; exact trivial
      | some sd =>
        simp only [hsd, Option.map_some']
        show SaveData.normalizeBig _ = SaveData.normalizeBig sd
        rw [normalizeBig_big]
    · simp only [everdriveImportFiles]
      cases hsd : s.sram with
      | none => simp only [hsd, Option.map_none']; exact trivial
      | some sd =>
        simp only [hsd, Option.map_some']
        show SaveData.normalizeBig _ = SaveData.normalizeBig sd
        rw [normalizeBig_big]
    · simp only [everdriveImportFiles]
      cases hsd : s.flashram with
      | none => simp only [hsd, Option.map_none']; exact trivial
      | some sd =>
        simp only [hsd, Option.map_some']
        show SaveData.normalizeBig _ = SaveData.normalizeBig sd
        rw [normalizeBig_big]
    · simp only [everdriveImportFiles]
      cases hsd : s.mpk1 with
      | none => simp only [hsd, Option.map_none']; exact trivial
      | some sd =>
        simp only [hsd, Option.map_some']
        show SaveData.normalizeBig _ = SaveData.normalizeBig sd
        rw [normalizeBig_big]
    · simp only [everdriveImportFiles]
      cases hsd : s.mpk2 with
      | none => simp only [hsd, Option.map_none']; exact trivial
      | some sd =>
        simp only [hsd, Option.map_some']
        show SaveData.normalizeBig _ = SaveData.normalizeBig sd
        rw [normalizeBig_big]
    · simp only [everdriveImportFiles]
      cases hsd : s.mpk3 with
      | none => simp only [hsd, Option.map_none']; exact trivial
      | some sd =>
        simp only [hsd, Option.map_some']
        show SaveData.normalizeBig _ = SaveData.normalizeBig sd
        rw [normalizeBig_big]
    · simp only [everdriveImportFiles]
      cases hsd : s.mpk4 with
      | none => simp only [hsd, Option.map_none']; exact trivial
      | some sd =>
        simp only [hsd, Option.map_some']
        show SaveData.normalizeBig _ = SaveData.normalizeBig sd
        rw [normalizeBig_big]
  · -- Project64 round trip
    refine ⟨_, project64ExportFiles_eq s alE alS alF alM1 alM2 alM3 alM4, ?_⟩
    refine ⟨?_, ?_, ?_, ?_, ?_, ?_, ?_⟩
    · simp only [project64ImportFiles]
      cases hsd : s.eeprom with
      | none => simp only [hsd, Option.map_none']; exact trivial
      | some sd =>
        simp only [hsd, Option.map_some']
        show SaveData.normalizeBig _ = SaveData.normalizeBig sd
        rw [normalizeBig_big]
    · simp only [project64ImportFiles]
      cases hsd : s.sram with
      | none => simp only [hsd, Option.map_none']; exact trivial
      | some sd =>
        simp only [hsd, Option.map_some']
        show SaveData.normalizeBig _ = SaveData.normalizeBig sd
        exact normalizeBig_of_normalizeLittle sd (alS sd hsd)
    · simp only [project64ImportFiles]
      cases hsd : s.flashram with
      | none => simp only [hsd, Option.map_none']; exact trivial
      | some sd =>
        simp only [hsd, Option.map_some', FLASHRAM_BYTESIZE]
        show SaveData.normalizeBig
            { data := sd.normalizeLittle ++
                List.replicate (131072 - sd.normalizeLittle.length) 0,
              endianness := .LITTLE_ENDIAN } = SaveData.normalizeBig sd
        rw [normalizeLittle_length, (hF sd hsd).1]
        rw [show (131072 - 131072 : Nat) = 0 from rfl, List.replicate_zero,
          List.append_nil]
        exact normalizeBig_of_normalizeLittle sd (alF sd hsd)
    · simp only [project64ImportFiles]
      cases hsd : s.mpk1 with
      | none => simp only [hsd, Option.map_none']; exact trivial
      | some sd =>
        simp only [hsd, Option.map_some', Option.some_bind]
        rw [mpkToSavegameData, (hM1 sd hsd).2, if_neg Bool.false_ne_true]
        show SaveData.normalizeBig _ = SaveData.normalizeBig sd
        rw [normalizeBig_big]
    · simp only [project64ImportFiles]
      cases hsd : s.mpk2 with
      | none => simp only [hsd, Option.map_none']; exact trivial
      | some sd =>
        simp only [hsd, Option.map_some', Option.some_bind]
        rw [mpkToSavegameData, (hM2 sd hsd).2, if_neg Bool.false_ne_true]
        show SaveData.normalizeBig _ = SaveData.normalizeBig sd
        rw [normalizeBig_big]
    · simp only [project64ImportFiles]
      cases hsd : s.mpk3 with
      | none => simp only [hsd, Option.map_none']; exact trivial
      | some sd =>
        simp only [hsd, Option.map_some', Option.some_bind]
        rw [mpkToSavegameData, (hM3 sd hsd).2, if_neg Bool.false_ne_true]
        show SaveData.normalizeBig _ = SaveData.normalizeBig sd
        rw [normalizeBig_big]
    · simp only [project64ImportFiles]
      cases hsd : s.mpk4 with
      | none => simp only [hsd, Option.map_none']; exact trivial
      | some sd =>
        simp only [hsd, Option.map_some', Option.some_bind]
        rw [mpkToSavegameData, (hM4 sd hsd).2, if_neg Bool.false_ne_true]
        show SaveData.normalizeBig _ = SaveData.normalizeBig sd
        rw [normalizeBig_big]
  · -- Mupen64Plus combined-image round trip
    have hexp := mupenExportData_eq s alE alS alF alM1 alM2 alM3 alM4
    have himp := mupenImportData_fields
      (packField 2048 ((s.eeprom.getD { data := [], endianness := .BIG_ENDIAN }).normalizeBig))
      (packField 32768 ((s.mpk1.getD { data := FORMATTED_MPK, endianness := .BIG_ENDIAN }).normalizeBig))
      (packField 32768 ((s.mpk2.getD { data := FORMATTED_MPK, endianness := .BIG_ENDIAN }).normalizeBig))
      (packField 32768 ((s.mpk3.getD { data := FORMATTED_MPK, endianness := .BIG_ENDIAN }).normalizeBig))
      (packField 32768 ((s.mpk4.getD { data := FORMATTED_MPK, endianness := .BIG_ENDIAN }).normalizeBig))
      (packField 32768 ((s.sram.getD
        { data := List.replicate 32768 255, endianness := .LITTLE_ENDIAN }).normalizeLittle))
      (packField 131072 ((s.flashram.getD
        { data := List.replicate 131072 255, endianness := .LITTLE_ENDIAN }).normalizeLittle))
      (packField_length 2048 _) (packField_length 32768 _) (packField_length 32768 _)
      (packField_length 32768 _) (packField_length 32768 _) (packField_length 32768 _)
      (packField_length 131072 _)
    refine ⟨_, _, hexp, himp, ?_, ?_, ?_, ?_, ?_, ?_, ?_⟩
    · -- eeprom
      cases hsd : s.eeprom with
      | none =>
        rw [Option.getD_none, normalizeBig_big, mupen_import_eeprom_none]
        exact trivial
      | some sd =>
        rw [Option.getD_some]
        rcases hE sd hsd with ⟨h5, hne⟩ | ⟨h2, hne, htail⟩
        · rw [mupen_import_eeprom_512 sd.normalizeBig
            (by rw [normalizeBig_length, h5]) hne]
          show SaveData.normalizeBig _ = SaveData.normalizeBig sd
          rw [normalizeBig_big]
        · rw [mupen_import_eeprom_2048 sd.normalizeBig
            (by rw [normalizeBig_length, h2]) hne htail]
          show SaveData.normalizeBig _ = SaveData.normalizeBig sd
          rw [normalizeBig_big]
    · -- sram
      cases hsd : s.sram with
      | none =>
        rw [Option.getD_none, normalizeLittle_little, mupen_import_region_none]
        exact trivial
      | some sd =>
        rw [Option.getD_some]
        rw [mupen_import_region 32768 sd.normalizeLittle
          (by rw [normalizeLittle_length, (hS sd hsd).1]) (hS sd hsd).2]
        show SaveData.normalizeBig _ = SaveData.normalizeBig sd
        exact normalizeBig_of_normalizeLittle sd (alS sd hsd)
    · -- flashram
      cases hsd : s.flashram with
      | none =>
        rw [Option.getD_none, normalizeLittle_little, mupen_import_region_none]
        exact trivial
      | some sd =>
        rw [Option.getD_some]
        rw [mupen_import_region 131072 sd.normalizeLittle
          (by rw [normalizeLittle_length, (hF sd hsd).1]) (hF sd hsd).2]
        show SaveData.normalizeBig _ = SaveData.normalizeBig sd
        exact normalizeBig_of_normalizeLittle sd (alF sd hsd)
    · -- mpk1
      cases hsd : s.mpk1 with
      | none =>
        rw [Option.getD_none, normalizeBig_big, mupen_import_mpk_none]
        exact trivial
      | some sd =>
        rw [Option.getD_some]
        rw [mupen_import_mpk sd.normalizeBig
          (by rw [normalizeBig_length, (hM1 sd hsd).1]) (hM1 sd hsd).2]
        show SaveData.normalizeBig _ = SaveData.normalizeBig sd
        rw [normalizeBig_big]
    · -- mpk2
      cases hsd : s.mpk2 with
      | none =>
        rw [Option.getD_none, normalizeBig_big, mupen_import_mpk_none]
        exact trivial
      | some sd =>
        rw [Option.getD_some]
        rw [mupen_import_mpk sd.normalizeBig
          (by rw [normalizeBig_length, (hM2 sd hsd).1]) (hM2 sd hsd).2]
        show SaveData.normalizeBig _ = SaveData.normalizeBig sd
        rw [normalizeBig_big]
    · -- mpk3
      cases hsd : s.mpk3 with
      | none =>
        rw [Option.getD_none, normalizeBig_big, mupen_import_mpk_none]
        exact trivial
      | some sd =>
        rw [Option.getD_some]
        rw [mupen_import_mpk sd.normalizeBig
          (by rw [normalizeBig_length, (hM3 sd hsd).1]) (hM3 sd hsd).2]
        show SaveData.normalizeBig _ = SaveData.normalizeBig sd
        rw [normalizeBig_big]
    · -- mpk4
      cases hsd : s.mpk4 with
      | none =>
        rw [Option.getD_none, normalizeBig_big, mupen_import_mpk_none]
        exact trivial
      | some sd =>
        rw [Option.getD_some]
        rw [mupen_import_mpk sd.normalizeBig
          (by rw [normalizeBig_length, (hM4 sd hsd).1]) (hM4 sd hsd).2]
        show SaveData.normalizeBig _ = SaveData.normalizeBig sd
        rw [normalizeBig_big]

theorem mupen_import_region_none0 (n k : Nat) (hk : (List.replicate k (0 : Nat)).length = n) :
    (stripEmptyData (packField n (List.replicate k 0))).map (fun d =>
      ({ data := d, endianness := .LITTLE_ENDIAN } : SaveData)) = none := by
  rw [packField_self n _ hk]
  rw [stripEmptyData_replicate k 0 (Or.inl rfl)]
  rfl

theorem SaveData_data_mk (d : List Nat) (e : Endianness) :
    ({ data := d, endianness := e } : SaveData).data = d := rfl

theorem Except_bind_ok {ε α β : Type} (a : α) (f : α → Except ε β) :
    (Except.ok a : Except ε α).bind f = f a := rfl

/-- C2 is false as stated: a genuine save whose SRAM is uniformly zero (a
present component of a non-empty SaveState) is exported to the combined image
and re-imported as the empty save state — the component is not reconstructed
but re-classified as absent by the uniform-fill heuristic. -/
theorem claim_C2_counterexample :
    Savegame.hasSave
      { sram := some { data := List.replicate 32768 0, endianness := .BIG_ENDIAN } } = true ∧
    (mupenExportData
      { sram := some { data := List.replicate 32768 0, endianness := .BIG_ENDIAN } }).bind
      mupenImportData =
      .ok { eeprom := none, sram := none, flashram := none,
            mpk1 := none, mpk2 := none, mpk3 := none, mpk4 := none, timestamp := 0 } := by
  constructor
  · rfl
  · have hnone : ∀ sd : SaveData, (none : Option SaveData) = some sd →
        sd.data.length % 4 = 0 := fun sd h => Option.noConfusion h
    have hsram : ∀ sd : SaveData,
        some ({ data := List.replicate 32768 0, endianness := .BIG_ENDIAN } : SaveData) =
          some sd → sd.data.length % 4 = 0 := by
      intro sd h
      rw [Option.some.injEq] at h
      rw [← h, SaveData_data_mk, List.length_replicate]
    have hexp := mupenExportData_eq
      { sram := some { data := List.replicate 32768 0, endianness := .BIG_ENDIAN } }
      hnone hsram hnone hnone hnone hnone hnone
    simp only [Option.getD_none, Option.getD_some, normalizeBig_big, normalizeLittle_big,
      normalizeLittle_little, -List.reduceReplicate] at hexp
    rw [show List.replicate 32768 (0 : Nat) = List.replicate (4 * 8192) 0 from by norm_num] at hexp
    rw [swapChunks_replicate_zero] at hexp
    rw [hexp, Except_bind_ok]
    rw [mupenImportData_fields _ _ _ _ _ _ _
      (packField_length 2048 _) (packField_length 32768 _) (packField_length 32768 _)
      (packField_length 32768 _) (packField_length 32768 _) (packField_length 32768 _)
      (packField_length 131072 _)]
    rw [mupen_import_eeprom_none]
    rw [mupen_import_mpk_none]
    rw [mupen_import_region_none0 32768 (4 * 8192) (by rw [List.length_replicate])]
    rw [mupen_import_region_none 131072]

theorem seq_not_err (a : COut) (k : CopyFS → COut) (x : CopyErr)
    (ha : a.outcome ≠ .error x) (hk : ∀ fs, (k fs).outcome ≠ .error x) :
    (a.seq k).outcome ≠ .error x := by
  unfold COut.seq
  cases h : a.outcome with
  | error e => exact ha
  | ok u => exact hk a.fs

theorem replaceFile_outcome_ne (fs : CopyFS) (src dst : FP) :
    (replaceFile fs src dst).outcome ≠ .error .sameLocation := by
  simp only [replaceFile]
  split <;> simp

theorem backupOne_outcome_ne (fs : CopyFS) (p? : Option FP) :
    (backupOne fs p?).outcome ≠ .error .sameLocation := by
  cases p? with
  | none => simp [backupOne]
  | some p => exact replaceFile_outcome_ne fs p p.backup

theorem backupList_outcome_ne (fs : CopyFS) (l : List (Option FP)) :
    (backupList fs l).outcome ≠ .error .sameLocation := by
  induction l generalizing fs with
  | nil => simp [backupList]
  | cons p rest ih =>
    exact seq_not_err _ _ _ (backupOne_outcome_ne fs p) (fun fs1 => ih fs1)

theorem backupSaveFiles_outcome_ne (fs : CopyFS) (sf? : Option CopySaveFiles) :
    (backupSaveFiles fs sf?).outcome ≠ .error .sameLocation := by
  cases sf? with
  | none => simp [backupSaveFiles]
  | some sf =>
    exact seq_not_err _ _ _ (backupOne_outcome_ne fs sf.eeprom) (fun fs1 =>
      seq_not_err _ _ _ (backupOne_outcome_ne fs1 sf.sram) (fun fs2 =>
      seq_not_err _ _ _ (backupOne_outcome_ne fs2 sf.flashram) (fun fs3 =>
      seq_not_err _ _ _ (backupOne_outcome_ne fs3 sf.mpk) (fun fs4 =>
      backupList_outcome_ne fs4 sf.mpks))))

theorem copyFile_outcome_ne (fs : CopyFS) (src? dst? : Option FP) (sw : Bool)
    (p : Option Nat) :
    (copyFile fs src? dst? sw p).outcome ≠ .error .sameLocation := by
  unfold copyFile
  repeat (any_goals (first | simp | split))

theorem copyPairs_outcome_ne (fs : CopyFS) (l : List (Option FP × Option FP)) :
    (copyPairs fs l).outcome ≠ .error .sameLocation := by
  induction l generalizing fs with
  | nil => simp [copyPairs]
  | cons pr rest ih =>
    obtain ⟨s, d2⟩ := pr
    exact seq_not_err _ _ _ (copyFile_outcome_ne fs s d2 false none) (fun fs1 => ih fs1)

theorem copySaveFiles_outcome_ne (sf : SaveFormat) (srcF : CopySaveFiles)
    (df : SaveFormat) (dstF : CopySaveFiles) (fs : CopyFS) :
    (copySaveFiles sf srcF df dstF fs).outcome ≠ .error .sameLocation := by
  exact seq_not_err _ _ _ (copyFile_outcome_ne _ _ _ _ _) (fun fs1 =>
    seq_not_err _ _ _ (copyFile_outcome_ne _ _ _ _ _) (fun fs2 =>
    seq_not_err _ _ _ (copyFile_outcome_ne _ _ _ _ _) (fun fs3 =>
    seq_not_err _ _ _ (copyFile_outcome_ne _ _ _ _ _) (fun fs4 =>
    copyPairs_outcome_ne fs4 _))))

theorem getPossibleSaveFiles_error_ne (romId : FP → Option (String × String))
    (fs : CopyFS) (romPath : FP) (fmt : SaveFormat) (savedir : List String) (e : CopyErr)
    (h : getPossibleSaveFiles romId fs romPath fmt savedir = .error e) :
    e ≠ CopyErr.sameLocation := by
  unfold getPossibleSaveFiles at h
  repeat' split at h
  all_goals first
    | exact Except.noConfusion h
    | (cases h; decide)

theorem getActualSaveFiles_error_ne (romId : FP → Option (String × String))
    (fs : CopyFS) (romPath : FP) (fmt : SaveFormat) (savedir : List String) (e : CopyErr)
    (h : getActualSaveFiles romId fs romPath fmt savedir = .error e) :
    e ≠ CopyErr.sameLocation := by
  simp only [getActualSaveFiles] at h
  repeat' split at h
  all_goals first
    | exact Except.noConfusion h
    | (cases h; decide)
    | (cases h; exact getPossibleSaveFiles_error_ne _ _ _ _ _ _ (by assumption))

theorem copySavesForRom_outcome_ne (romId : FP → Option (String × String)) (fs : CopyFS)
    (romPath : FP) (sf : SaveFormat) (sd : List String) (df : SaveFormat)
    (dd : List String) :
    (copySavesForRom romId fs romPath sf sd df dd).outcome ≠
      .error .sameLocation := by
  unfold copySavesForRom
  split
  · simp
  split
  · simp
  split
  · simp
  split
  · intro hc
    injection hc with h2
    exact getActualSaveFiles_error_ne _ _ _ _ _ _ (by assumption) h2
  · exact fun hc => Except.noConfusion hc
  split
  · intro hc
    injection hc with h2
    exact getPossibleSaveFiles_error_ne _ _ _ _ _ _ (by assumption) h2
  split
  · intro hc
    injection hc with h2
    exact getActualSaveFiles_error_ne _ _ _ _ _ _ (by assumption) h2
  refine seq_not_err _ _ _ (backupSaveFiles_outcome_ne _ _) (fun fs1 => ?_)
  split
  · simp
  · exact copySaveFiles_outcome_ne _ _ _ _ _

theorem seq_trace_cases (a : COut) (k : CopyFS → COut) :
    (a.seq k).trace = a.trace ∨ (a.seq k).trace = a.trace ++ (k a.fs).trace := by
  unfold COut.seq
  cases h : a.outcome with
  | error e => exact Or.inl rfl
  | ok u => exact Or.inr rfl

theorem seq_trace_pred (a : COut) (k : CopyFS → COut) (P : Event → Prop)
    (ha : ∀ e ∈ a.trace, P e) (hk : ∀ fs2, ∀ e ∈ (k fs2).trace, P e) :
    ∀ e ∈ (a.seq k).trace, P e := by
  intro e he
  rcases seq_trace_cases a k with h | h
  · rw [h] at he
    exact ha e he
  · rw [h] at he
    rcases List.mem_append.mp he with h2 | h2
    · exact ha e h2
    · exact hk a.fs e h2

theorem seq_ok (a : COut) (k : CopyFS → COut) (h : (a.seq k).outcome = .ok ()) :
    a.outcome = .ok () ∧ (k a.fs).outcome = .ok () ∧
      (a.seq k).trace = a.trace ++ (k a.fs).trace := by
  unfold COut.seq at h ⊢
  cases ha : a.outcome with
  | error e =>
    rw [ha] at h
    exact absurd (ha.symm.trans h) (fun hc => Except.noConfusion hc)
  | ok u =>
    cases u
    rw [ha] at h
    exact ⟨rfl, h, rfl⟩

theorem replaceFile_trace_events (fs : CopyFS) (src dst : FP) :
    ∀ e ∈ (replaceFile fs src dst).trace,
      e.isFileWrite = false ∧ ∀ p q, e = .rename p q → p = src ∧ q = dst := by
  simp only [replaceFile]
  split <;> intro e he <;>
    simp only [List.mem_cons, List.not_mem_nil, or_false] at he
  · subst he
    exact ⟨rfl, fun p q h2 => Event.noConfusion h2⟩
  · rcases he with he | he <;> subst he
    · exact ⟨rfl, fun p q h2 => Event.noConfusion h2⟩
    · refine ⟨rfl, fun p q h2 => ?_⟩
      injection h2 with h3 h4
      exact ⟨h3.symm, h4.symm⟩

theorem backupOne_trace_events (fs : CopyFS) (p? : Option FP) :
    ∀ e ∈ (backupOne fs p?).trace,
      e.isFileWrite = false ∧ ∀ p q, e = .rename p q → q = p.backup := by
  cases p? with
  | none => intro e he; simp [backupOne] at he
  | some p0 =>
    intro e he
    obtain ⟨hw, hr⟩ := replaceFile_trace_events fs p0 p0.backup e he
    refine ⟨hw, fun p q h2 => ?_⟩
    obtain ⟨h3, h4⟩ := hr p q h2
    rw [h4, h3]

theorem backupList_trace_events (fs : CopyFS) (l : List (Option FP)) :
    ∀ e ∈ (backupList fs l).trace,
      e.isFileWrite = false ∧ ∀ p q, e = .rename p q → q = p.backup := by
  induction l generalizing fs with
  | nil => intro e he; simp [backupList] at he
  | cons p rest ih =>
    exact seq_trace_pred _ _ _ (backupOne_trace_events fs p) (fun fs2 => ih fs2)

theorem backupSaveFiles_trace_events (fs : CopyFS) (sf? : Option CopySaveFiles) :
    ∀ e ∈ (backupSaveFiles fs sf?).trace,
      e.isFileWrite = false ∧ ∀ p q, e = .rename p q → q = p.backup := by
  cases sf? with
  | none => intro e he; simp [backupSaveFiles] at he
  | some sf =>
    exact seq_trace_pred _ _ _ (backupOne_trace_events fs sf.eeprom) (fun fs1 =>
      seq_trace_pred _ _ _ (backupOne_trace_events fs1 sf.sram) (fun fs2 =>
      seq_trace_pred _ _ _ (backupOne_trace_events fs2 sf.flashram) (fun fs3 =>
      seq_trace_pred _ _ _ (backupOne_trace_events fs3 sf.mpk) (fun fs4 =>
      backupList_trace_events fs4 sf.mpks))))

theorem copyFile_trace_no_rename (fs : CopyFS) (src? dst? : Option FP) (sw : Bool)
    (p : Option Nat) :
    ∀ e ∈ (copyFile fs src? dst? sw p).trace, e.isRename = false := by
  intro e he
  unfold copyFile at he
  repeat (any_goals (first
    | (simp only [List.cons_append, List.nil_append, List.mem_cons,
        List.not_mem_nil, or_false] at he)
    | (split at he)))
  all_goals ((first
    | (rcases he with rfl | rfl | rfl)
    | (rcases he with rfl | rfl)
    | (rcases he with rfl)) <;> rfl)

theorem copyPairs_trace_no_rename (fs : CopyFS) (l : List (Option FP × Option FP)) :
    ∀ e ∈ (copyPairs fs l).trace, e.isRename = false := by
  induction l generalizing fs with
  | nil => intro e he; simp [copyPairs] at he
  | cons pr rest ih =>
    obtain ⟨s, d2⟩ := pr
    exact seq_trace_pred _ _ _ (copyFile_trace_no_rename fs s d2 false none)
      (fun fs2 => ih fs2)

theorem copySaveFiles_trace_no_rename (sf : SaveFormat) (srcF : CopySaveFiles)
    (df : SaveFormat) (dstF : CopySaveFiles) (fs : CopyFS) :
    ∀ e ∈ (copySaveFiles sf srcF df dstF fs).trace, e.isRename = false := by
  exact seq_trace_pred _ _ _ (copyFile_trace_no_rename _ _ _ _ _) (fun fs1 =>
    seq_trace_pred _ _ _ (copyFile_trace_no_rename _ _ _ _ _) (fun fs2 =>
    seq_trace_pred _ _ _ (copyFile_trace_no_rename _ _ _ _ _) (fun fs3 =>
    seq_trace_pred _ _ _ (copyFile_trace_no_rename _ _ _ _ _) (fun fs4 =>
    copyPairs_trace_no_rename fs4 _))))

theorem replaceFile_ok_mem (fs : CopyFS) (p d : FP)
    (h : (replaceFile fs p d).outcome = .ok ()) :
    Event.rename p d ∈ (replaceFile fs p d).trace := by
  simp only [replaceFile] at h ⊢
  cases hl : (fs.mkdir d.dir).lookup p with
  | none =>
    rw [hl] at h
    exact absurd h (fun hc => Except.noConfusion hc)
  | some data => simp

theorem backupOne_ok_mem (fs : CopyFS) (p : FP)
    (h : (backupOne fs (some p)).outcome = .ok ()) :
    Event.rename p p.backup ∈ (backupOne fs (some p)).trace :=
  replaceFile_ok_mem fs p p.backup h

theorem backupList_ok_mem (fs : CopyFS) (l : List (Option FP))
    (h : (backupList fs l).outcome = .ok ()) :
    ∀ p : FP, some p ∈ l → Event.rename p p.backup ∈ (backupList fs l).trace := by
  induction l generalizing fs with
  | nil => intro p hp; exact absurd hp (List.not_mem_nil _)
  | cons q rest ih =>
    intro p hp
    obtain ⟨h1, h2, h3⟩ := seq_ok (backupOne fs q) (fun fs1 => backupList fs1 rest) h
    have h3b : (backupList fs (q :: rest)).trace =
        (backupOne fs q).trace ++ (backupList (backupOne fs q).fs rest).trace := h3
    rw [h3b]
    rcases List.mem_cons.mp hp with hq | hrest
    · subst hq
      exact List.mem_append_left _ (backupOne_ok_mem fs p h1)
    · exact List.mem_append_right _ (ih (backupOne fs q).fs h2 p hrest)

theorem backupSaveFiles_ok_mem (fs : CopyFS) (a : CopySaveFiles)
    (h : (backupSaveFiles fs (some a)).outcome = .ok ()) :
    ∀ p ∈ a.presentFiles,
      Event.rename p p.backup ∈ (backupSaveFiles fs (some a)).trace := by
  intro p hp
  obtain ⟨h1, h2, h3⟩ := seq_ok (backupOne fs a.eeprom) _ h
  obtain ⟨h21, h22, h23⟩ := seq_ok (backupOne (backupOne fs a.eeprom).fs a.sram) _ h2
  obtain ⟨h31, h32, h33⟩ := seq_ok (backupOne _ a.flashram) _ h22
  obtain ⟨h41, h42, h43⟩ := seq_ok (backupOne _ a.mpk) _ h32
  have h3b : (backupSaveFiles fs (some a)).trace = _ ++ _ := h3
  rw [h3b, h23, h33, h43]
  simp only [CopySaveFiles.presentFiles, List.mem_append] at hp
  rcases hp with ((((hp | hp) | hp) | hp) | hp)
  · refine List.mem_append_left _ ?_
    rcases he : a.eeprom with _ | p0
    · rw [he] at hp; exact absurd hp (List.not_mem_nil _)
    · rw [he] at hp h1
      simp only [Option.toList_some, List.mem_singleton] at hp
      subst hp
      exact backupOne_ok_mem fs p h1
  · refine List.mem_append_right _ (List.mem_append_left _ ?_)
    rcases he : a.sram with _ | p0
    · rw [he] at hp; exact absurd hp (List.not_mem_nil _)
    · rw [he] at hp h21
      simp only [Option.toList_some, List.mem_singleton] at hp
      subst hp
      exact backupOne_ok_mem _ p h21
  · refine List.mem_append_right _ (List.mem_append_right _ (List.mem_append_left _ ?_))
    rcases he : a.flashram with _ | p0
    · rw [he] at hp; exact absurd hp (List.not_mem_nil _)
    · rw [he] at hp h31
      simp only [Option.toList_some, List.mem_singleton] at hp
      subst hp
      exact backupOne_ok_mem _ p h31
  · refine List.mem_append_right _ (List.mem_append_right _ (List.mem_append_right _
      (List.mem_append_left _ ?_)))
    rcases he : a.mpk with _ | p0
    · rw [he] at hp; exact absurd hp (List.not_mem_nil _)
    · rw [he] at hp h41
      simp only [Option.toList_some, List.mem_singleton] at hp
      subst hp
      exact backupOne_ok_mem _ p h41
  · refine List.mem_append_right _ (List.mem_append_right _ (List.mem_append_right _
      (List.mem_append_right _ ?_)))
    have hmem : some p ∈ a.mpks := by
      rcases List.mem_filterMap.mp hp with ⟨o, ho, hid⟩
      rw [show id o = o from rfl] at hid
      rw [hid] at ho
      exact ho
    exact backupList_ok_mem _ a.mpks h42 p hmem

/-- C9: in every single-ROM conversion the trace splits into a backup phase
followed by a copy phase: the backup phase performs no file writes and every
rename in it moves a path to its sibling `backup/` twin (`p.backup`), the copy
phase performs no renames at all, and whenever the run reaches the copy phase
successfully, every present destination file has been renamed into `backup/`
during the backup phase. -/
theorem claim_C9_backup_before_copy (romId : FP → Option (String × String)) (fs : CopyFS)
    (romPath : FP) (sf : SaveFormat) (sd : List String) (df : SaveFormat) (dd : List String) :
    ∃ t1 t2,
      (copySavesForRom romId fs romPath sf sd df dd).trace = t1 ++ t2 ∧
      (∀ e ∈ t1, e.isFileWrite = false) ∧
      (∀ e ∈ t2, e.isRename = false) ∧
      (∀ e ∈ t1, ∀ p q, e = Event.rename p q → q = p.backup) ∧
      (∀ srcA dstA : CopySaveFiles,
        getActualSaveFiles romId fs romPath sf sd = .ok (some srcA) →
        getActualSaveFiles romId fs romPath df dd = .ok (some dstA) →
        (copySavesForRom romId fs romPath sf sd df dd).outcome = .ok () →
        ∀ p ∈ dstA.presentFiles, Event.rename p p.backup ∈ t1) := by
  have nilP : ∀ (P : Event → Prop), ∀ e ∈ ([] : List Event), P e :=
    fun P e he => absurd he (List.not_mem_nil e)
  unfold copySavesForRom
  split
  · exact ⟨[], [], rfl, nilP _, nilP _, nilP _,
      fun _ _ _ _ hok => absurd hok (fun hc => Except.noConfusion hc)⟩
  split
  · exact ⟨[], [], rfl, nilP _, nilP _, nilP _,
      fun _ _ _ _ hok => absurd hok (fun hc => Except.noConfusion hc)⟩
  split
  · exact ⟨[], [], rfl, nilP _, nilP _, nilP _,
      fun _ _ _ _ hok => absurd hok (fun hc => Except.noConfusion hc)⟩
  split
  · exact ⟨[], [], rfl, nilP _, nilP _, nilP _,
      fun _ _ _ _ hok => absurd hok (fun hc => Except.noConfusion hc)⟩
  · rename_i heqSrc
    exact ⟨[], [], rfl, nilP _, nilP _, nilP _,
      fun srcA dstA h1 h2 hok => by
        rw [heqSrc] at h1
        exact Option.noConfusion (Except.ok.inj h1)⟩
  · rename_i srcF heqSrc
    split
    · exact ⟨[], [], rfl, nilP _, nilP _, nilP _,
        fun _ _ _ _ hok => absurd hok (fun hc => Except.noConfusion hc)⟩
    · rename_i dstPoss? heqPoss
      split
      · exact ⟨[], [], rfl, nilP _, nilP _, nilP _,
          fun _ _ _ _ hok => absurd hok (fun hc => Except.noConfusion hc)⟩
      · rename_i dstActual? heqDst
        cases dstPoss? with
        | none =>
          refine ⟨(backupSaveFiles fs dstActual?).trace, [], ?_, ?_, nilP _, ?_, ?_⟩
          · rcases seq_trace_cases (backupSaveFiles fs dstActual?)
              (fun fs1 => ({ outcome := .error .attrError, fs := fs1, trace := [] } : COut))
              with h | h
            · rw [h]
              exact (List.append_nil _).symm
            · rw [h]
          · exact fun e2 he => (backupSaveFiles_trace_events fs dstActual? e2 he).1
          · exact fun e2 he => (backupSaveFiles_trace_events fs dstActual? e2 he).2
          · intro srcA dstA h1 h2 hok
            exfalso
            have hko := (seq_ok _ _ hok).2.1
            exact Except.noConfusion hko
        | some dstF =>
          cases hb : (backupSaveFiles fs dstActual?).outcome with
          | error e =>
            refine ⟨(backupSaveFiles fs dstActual?).trace, [], ?_, ?_, nilP _, ?_, ?_⟩
            · show ((backupSaveFiles fs dstActual?).seq _).trace = _
              unfold COut.seq
              rw [hb]
              exact (List.append_nil _).symm
            · exact fun e2 he => (backupSaveFiles_trace_events fs dstActual? e2 he).1
            · exact fun e2 he => (backupSaveFiles_trace_events fs dstActual? e2 he).2
            · intro srcA dstA h1 h2 hok
              exfalso
              have hko := (seq_ok _ _ hok).1
              rw [hb] at hko
              exact Except.noConfusion hko
          | ok u =>
            cases u
            have h3 : ((backupSaveFiles fs dstActual?).seq
                (fun fs1 => copySaveFiles sf srcF df dstF fs1)).trace =
                (backupSaveFiles fs dstActual?).trace ++
                  (copySaveFiles sf srcF df dstF (backupSaveFiles fs dstActual?).fs).trace := by
              unfold COut.seq
              rw [hb]
            refine ⟨(backupSaveFiles fs dstActual?).trace,
              (copySaveFiles sf srcF df dstF (backupSaveFiles fs dstActual?).fs).trace,
              h3, ?_, ?_, ?_, ?_⟩
            · exact fun e2 he => (backupSaveFiles_trace_events fs dstActual? e2 he).1
            · exact fun e2 he => copySaveFiles_trace_no_rename _ _ _ _ _ e2 he
            · exact fun e2 he => (backupSaveFiles_trace_events fs dstActual? e2 he).2
            · intro srcA dstA h1 h2 hok
              rw [heqDst] at h2
              have hda : dstActual? = some dstA := Except.ok.inj h2
              subst hda
              exact backupSaveFiles_ok_mem fs dstA hb

/-- C3 is false as stated: converting with the source directory equal to the
destination directory does not fail with a SameLocation error and does write
to disk — the backup step renames the source save into `backup/`, after which
the copy step fails with FileNotFound, the source file gone. -/
theorem claim_C3_counterexample :
    (copySavesForRom (fun _ => none)
      { files := [({ dir := ["roms"], stem := "Game", suffix := ".z64" }, [128]),
                  ({ dir := ["saves"], stem := "Game", suffix := ".eep" }, [9, 9, 9, 9])],
        dirs := [["roms"], ["saves"]] }
      { dir := ["roms"], stem := "Game", suffix := ".z64" }
      .ED64 ["saves"] .ED64 ["saves"]).outcome = .error .fileNotFound ∧
    (copySavesForRom (fun _ => none)
      { files := [({ dir := ["roms"], stem := "Game", suffix := ".z64" }, [128]),
                  ({ dir := ["saves"], stem := "Game", suffix := ".eep" }, [9, 9, 9, 9])],
        dirs := [["roms"], ["saves"]] }
      { dir := ["roms"], stem := "Game", suffix := ".z64" }
      .ED64 ["saves"] .ED64 ["saves"]).outcome ≠ .error .sameLocation ∧
    (copySavesForRom (fun _ => none)
      { files := [({ dir := ["roms"], stem := "Game", suffix := ".z64" }, [128]),
                  ({ dir := ["saves"], stem := "Game", suffix := ".eep" }, [9, 9, 9, 9])],
        dirs := [["roms"], ["saves"]] }
      { dir := ["roms"], stem := "Game", suffix := ".z64" }
      .ED64 ["saves"] .ED64 ["saves"]).trace =
      [.mkdir ["saves", "backup"],
       .rename { dir := ["saves"], stem := "Game", suffix := ".eep" }
         { dir := ["saves", "backup"], stem := "Game", suffix := ".eep" },
       .mkdir ["saves"]] ∧
    (copySavesForRom (fun _ => none)
      { files := [({ dir := ["roms"], stem := "Game", suffix := ".z64" }, [128]),
                  ({ dir := ["saves"], stem := "Game", suffix := ".eep" }, [9, 9, 9, 9])],
        dirs := [["roms"], ["saves"]] }
      { dir := ["roms"], stem := "Game", suffix := ".z64" }
      .ED64 ["saves"] .ED64 ["saves"]).fs.lookup
        { dir := ["saves"], stem := "Game", suffix := ".eep" } = none ∧
    (copySavesForRom (fun _ => none)
      { files := [({ dir := ["roms"], stem := "Game", suffix := ".z64" }, [128]),
                  ({ dir := ["saves"], stem := "Game", suffix := ".eep" }, [9, 9, 9, 9])],
        dirs := [["roms"], ["saves"]] }
      { dir := ["roms"], stem := "Game", suffix := ".z64" }
      .ED64 ["saves"] .ED64 ["saves"]).fs.lookup
        { dir := ["saves", "backup"], stem := "Game", suffix := ".eep" } =
      some [9, 9, 9, 9] := by
  refine ⟨rfl, ?_, rfl, rfl, rfl⟩
  exact copySavesForRom_outcome_ne _ _ _ _ _ _ _

/-- C3 (amended).  `copy_saves_for_rom` compares the source and destination
locations nowhere and can produce no SameLocation failure on any input;
running it with the source directory equal to the destination directory
instead renames the existing source save files into the sibling `backup/`
directory and then fails with FileNotFound when the copy step reads the
now-missing source, leaving the save moved into `backup/`. -/
theorem claim_C3_same_location :
    (∀ (romId : FP → Option (String × String)) (fs : CopyFS) (romPath : FP)
      (sf : SaveFormat) (sd : List String) (df : SaveFormat) (dd : List String),
      (copySavesForRom romId fs romPath sf sd df dd).outcome ≠
        .error .sameLocation) ∧
    (∀ d : List Nat,
      (copySavesForRom (fun _ => none)
        { files := [({ dir := ["roms"], stem := "Game", suffix := ".z64" }, [128]),
                    ({ dir := ["saves"], stem := "Game", suffix := ".eep" }, d)],
          dirs := [["roms"], ["saves"]] }
        { dir := ["roms"], stem := "Game", suffix := ".z64" }
        .ED64 ["saves"] .ED64 ["saves"]).outcome = .error .fileNotFound ∧
      (copySavesForRom (fun _ => none)
        { files := [({ dir := ["roms"], stem := "Game", suffix := ".z64" }, [128]),
                    ({ dir := ["saves"], stem := "Game", suffix := ".eep" }, d)],
          dirs := [["roms"], ["saves"]] }
        { dir := ["roms"], stem := "Game", suffix := ".z64" }
        .ED64 ["saves"] .ED64 ["saves"]).fs.lookup
          { dir := ["saves"], stem := "Game", suffix := ".eep" } = none ∧
      (copySavesForRom (fun _ => none)
        { files := [({ dir := ["roms"], stem := "Game", suffix := ".z64" }, [128]),
                    ({ dir := ["saves"], stem := "Game", suffix := ".eep" }, d)],
          dirs := [["roms"], ["saves"]] }
        { dir := ["roms"], stem := "Game", suffix := ".z64" }
        .ED64 ["saves"] .ED64 ["saves"]).fs.lookup
          { dir := ["saves", "backup"], stem := "Game", suffix := ".eep" } =
        some d) :=
  ⟨fun romId fs romPath sf sd df dd => copySavesForRom_outcome_ne romId fs romPath sf sd df dd,
   fun d => ⟨rfl, rfl, rfl⟩⟩

/-- C5 is false as stated: the Mupen64Plus adapter accepts an EEPROM longer
than its 2048-byte slot and silently truncates it via `struct.pack`, instead
of raising a hard error. -/
theorem claim_C5_counterexample :
    2048 < (List.replicate 2052 (7 : Nat)).length ∧
    ∃ b, mupenExportData
        { eeprom := some { data := List.replicate 2052 7, endianness := .BIG_ENDIAN } } = .ok b ∧
      b.take 2048 = List.replicate 2048 7 := by
  refine ⟨by rw [List.length_replicate]; decide, ?_⟩
  have hnone : ∀ sd : SaveData, (none : Option SaveData) = some sd →
      sd.data.length % 4 = 0 := fun sd h => Option.noConfusion h
  have heep : ∀ sd : SaveData,
      (some ({ data := List.replicate 2052 7, endianness := .BIG_ENDIAN } : SaveData) :
        Option SaveData) = some sd → sd.data.length % 4 = 0 := by
    intro sd h
    rw [Option.some.injEq] at h
    rw [← h, SaveData_data_mk, List.length_replicate]
  have hexp := mupenExportData_eq
    { eeprom := some { data := List.replicate 2052 7, endianness := .BIG_ENDIAN } }
    heep hnone hnone hnone hnone hnone hnone
  simp only [Option.getD_none, Option.getD_some, normalizeBig_big, normalizeLittle_little,
    -List.reduceReplicate] at hexp
  refine ⟨_, hexp, ?_⟩
  rw [packField_of_ge 2048 _ (by rw [List.length_replicate]; decide)]
  rw [List.take_replicate]
  rw [show min 2048 2052 = 2048 from by norm_num]
  exact List.take_left' (List.length_replicate 2048 7)

/-- C5 (amended).  The copy engine pads only on its unpadded-source path
(`pad_to`), where an oversized source is a hard `savefileTooLarge` error
raised before any content reaches the destination; however, the Mupen64Plus
adapter silently truncates an oversized component when packing the combined
image, and the Project64 adapter pads FlashRAM on the import path as well. -/
theorem claim_C5_padding_contract (fs : CopyFS) (src dst : FP) (n : Nat) (d : List Nat)
    (hd : (fs.mkdir dst.dir).lookup src = some d) (hn : n < d.length)
    (e : List Nat) (he : e.length % 4 = 0) (hge : 2048 ≤ e.length) :
    ((copyFile fs (some src) (some dst) false (some n)).outcome = .error .savefileTooLarge ∧
      ∀ ev ∈ (copyFile fs (some src) (some dst) false (some n)).trace,
        ev.isFileWrite = false) ∧
    (∃ b, mupenExportData { eeprom := some { data := e, endianness := .BIG_ENDIAN } } = .ok b ∧
      b.take 2048 = e.take 2048) ∧
    (∀ f : MultipleSaveData, ∀ dfl, f.flashram = some dfl →
      (project64ImportFiles f).flashram =
        some { data := dfl ++ List.replicate (131072 - dfl.length) 0,
               endianness := .LITTLE_ENDIAN }) := by
  have hcf : copyFile fs (some src) (some dst) false (some n) =
      { outcome := .error .savefileTooLarge, fs := fs.mkdir dst.dir,
        trace := [.mkdir dst.dir] } := by
    simp only [copyFile, Option.isSome_some, Bool.false_or, hd, if_true,
      Bool.false_eq_true, if_false]
    rw [if_pos hn]
  refine ⟨⟨?_, ?_⟩, ?_, ?_⟩
  · rw [hcf]
  · rw [hcf]
    intro ev hev
    simp only [List.mem_singleton] at hev
    rw [hev]
    rfl
  · have hnone : ∀ sd : SaveData, (none : Option SaveData) = some sd →
        sd.data.length % 4 = 0 := fun sd h => Option.noConfusion h
    have heep : ∀ sd : SaveData,
        (some ({ data := e, endianness := .BIG_ENDIAN } : SaveData) :
          Option SaveData) = some sd → sd.data.length % 4 = 0 := by
      intro sd h
      rw [Option.some.injEq] at h
      rw [← h, SaveData_data_mk]
      exact he
    have hexp := mupenExportData_eq
      { eeprom := some { data := e, endianness := .BIG_ENDIAN } }
      heep hnone hnone hnone hnone hnone hnone
    simp only [Option.getD_none, Option.getD_some, normalizeBig_big, normalizeLittle_little,
      -List.reduceReplicate] at hexp
    refine ⟨_, hexp, ?_⟩
    rw [packField_of_ge 2048 e hge]
    exact List.take_left' (by rw [List.length_take]; exact Nat.min_eq_left hge)
  · intro f dfl hf
    simp only [project64ImportFiles, hf, Option.map_some', FLASHRAM_BYTESIZE]

/-- Witness for the amended C5: a 4-byte source padded to 2 bytes fails hard
with no write, a 2048-byte EEPROM packs unharmed, and the Project64 FlashRAM
importer pads short data. -/
theorem claim_C5_padding_contract_witness :
    ((copyFile { files := [({ dir := [], stem := "s", suffix := "" }, [1, 2, 3, 4])], dirs := [] }
        (some { dir := [], stem := "s", suffix := "" })
        (some { dir := ["d"], stem := "s", suffix := "" })
        false (some 2)).outcome = .error .savefileTooLarge ∧
      ∀ ev ∈ (copyFile { files := [({ dir := [], stem := "s", suffix := "" }, [1, 2, 3, 4])], dirs := [] }
        (some { dir := [], stem := "s", suffix := "" })
        (some { dir := ["d"], stem := "s", suffix := "" })
        false (some 2)).trace, ev.isFileWrite = false) ∧
    (∃ b, mupenExportData
        { eeprom := some { data := List.replicate 2048 9, endianness := .BIG_ENDIAN } } = .ok b ∧
      b.take 2048 = (List.replicate 2048 9).take 2048) ∧
    (∀ f : MultipleSaveData, ∀ dfl, f.flashram = some dfl →
      (project64ImportFiles f).flashram =
        some { data := dfl ++ List.replicate (131072 - dfl.length) 0,
               endianness := .LITTLE_ENDIAN }) :=
  claim_C5_padding_contract _ _ _ 2 [1, 2, 3, 4] (by decide) (by decide)
    (List.replicate 2048 9) (by rw [List.length_replicate]) (by rw [List.length_replicate])

/-- Witness for the amended C2: a concrete save state holding one
little-endian SRAM component round-trips through all three adapters. -/
theorem claim_C2_roundtrip_witness :
    (∃ f, everdriveExportFiles { sram := some { data := 3 :: List.replicate 32767 0, endianness := .LITTLE_ENDIAN } } = .ok f ∧
      compNormEq (everdriveImportFiles f) { sram := some { data := 3 :: List.replicate 32767 0, endianness := .LITTLE_ENDIAN } }) ∧
    (∃ f, project64ExportFiles { sram := some { data := 3 :: List.replicate 32767 0, endianness := .LITTLE_ENDIAN } } = .ok f ∧
      compNormEq (project64ImportFiles f) { sram := some { data := 3 :: List.replicate 32767 0, endianness := .LITTLE_ENDIAN } }) ∧
    (∃ b s2, mupenExportData { sram := some { data := 3 :: List.replicate 32767 0, endianness := .LITTLE_ENDIAN } } = .ok b ∧
      mupenImportData b = .ok s2 ∧
      compNormEq s2 { sram := some { data := 3 :: List.replicate 32767 0, endianness := .LITTLE_ENDIAN } }) := by
  refine claim_C2_roundtrip _ ?_ ?_ ?_ ?_ ?_ ?_ ?_
  · exact fun sd h => Option.noConfusion h
  · intro sd h
    have h2 : ({ data := 3 :: List.replicate 32767 0, endianness := .LITTLE_ENDIAN } : SaveData) = sd := by
      injection h
    rw [← h2]
    refine ⟨?_, ?_⟩
    · rw [SaveData_data_mk, List.length_cons, List.length_replicate]
    · rfl
  · exact fun sd h => Option.noConfusion h
  · exact fun sd h => Option.noConfusion h
  · exact fun sd h => Option.noConfusion h
  · exact fun sd h => Option.noConfusion h
  · exact fun sd h => Option.noConfusion h

theorem DiskFS_lookup_mkdir (fs : DiskFS) (d : List String) (q : FP) :
    (fs.mkdir d).lookup q = fs.lookup q := rfl

theorem find?_key_filter_ne (p q : FP) (h : q ≠ p) :
    ∀ l : List (FP × FileEnt),
      (l.filter (fun e => !(e.1 == p))).find? (fun e => e.1 == q) =
        l.find? (fun e => e.1 == q)
  | [] => rfl
  | a :: rest => by
    by_cases hap : a.1 = p
    · have h1 : (!(a.1 == p)) = false := by simp [hap]
      have h2 : (a.1 == q) = false := by
        simp only [beq_eq_false_iff_ne, ne_eq, hap]
        exact fun hc => h hc.symm
      rw [List.filter_cons, h1]
      simp only [Bool.false_eq_true, if_false]
      rw [find?_key_filter_ne p q h rest]
      rw [List.find?_cons_of_neg]
      simp [h2]
    · have h1 : (!(a.1 == p)) = true := by simp [hap]
      rw [List.filter_cons, h1]
      simp only [if_true]
      by_cases haq : a.1 = q
      · rw [List.find?_cons_of_pos, List.find?_cons_of_pos] <;> simp [haq]
      · rw [List.find?_cons_of_neg, List.find?_cons_of_neg]
        · exact find?_key_filter_ne p q h rest
        · simp [haq]
        · simp [haq]

theorem DiskFS_lookup_write_self (fs : DiskFS) (p : FP) (ent : FileEnt) :
    (fs.write p ent).lookup p = some ent := by
  unfold DiskFS.write DiskFS.lookup
  rw [List.find?_cons_of_pos]
  · rfl
  · simp

theorem DiskFS_lookup_write_ne (fs : DiskFS) (p q : FP) (ent : FileEnt) (h : q ≠ p) :
    (fs.write p ent).lookup q = fs.lookup q := by
  unfold DiskFS.write DiskFS.lookup
  rw [List.find?_cons_of_neg]
  · rw [find?_key_filter_ne p q h fs.files]
  · simp only [Bool.not_eq_true, beq_eq_false_iff_ne, ne_eq]
    exact fun hc => h hc.symm

theorem DiskFS_isDir_mkdir_of (fs : DiskFS) (d x : List String)
    (h : fs.isDir x = true) : (fs.mkdir d).isDir x = true := by
  unfold DiskFS.isDir DiskFS.mkdir at *
  rw [List.contains_cons, h, Bool.or_true]

theorem DiskFS_isDir_write (fs : DiskFS) (p : FP) (ent : FileEnt) (x : List String) :
    (fs.write p ent).isDir x = fs.isDir x := rfl

theorem modifiedTimestamp_congr (fs1 fs2 : DiskFS) (q : FP)
    (h : fs1.lookup q = fs2.lookup q) :
    modifiedTimestamp fs1 q = modifiedTimestamp fs2 q := by
  unfold modifiedTimestamp
  rw [h]

theorem modifiedTimestamp_write_self (fs : DiskFS) (p : FP) (ent : FileEnt) :
    modifiedTimestamp (fs.write p ent) p = ent.mtime := by
  unfold modifiedTimestamp
  rw [DiskFS_lookup_write_self]

theorem foldl_max_mono_init (fs : DiskFS) :
    ∀ (ps : List FP) (acc : Nat),
      acc ≤ ps.foldl (fun a p => max a (modifiedTimestamp fs p)) acc
  | [], _ => le_refl _
  | p :: rest, acc =>
    le_trans (Nat.le_max_left _ _) (foldl_max_mono_init fs rest _)

theorem mem_le_foldl_max (fs : DiskFS) (p : FP) :
    ∀ (ps : List FP) (acc : Nat), p ∈ ps →
      modifiedTimestamp fs p ≤ ps.foldl (fun a q => max a (modifiedTimestamp fs q)) acc
  | [], _, hp => absurd hp (List.not_mem_nil _)
  | q :: rest, acc, hp => by
    rcases List.mem_cons.mp hp with rfl | hmem
    · exact le_trans (Nat.le_max_right acc _) (foldl_max_mono_init fs rest _)
    · exact mem_le_foldl_max fs p rest _ hmem

theorem le_newestTimestamp_of_mem (fs : DiskFS) (ps : List FP) (p : FP) (hp : p ∈ ps) :
    modifiedTimestamp fs p ≤ newestTimestamp fs ps :=
  mem_le_foldl_max fs p ps 0 hp

theorem foldl_max_congr (fs1 fs2 : DiskFS) :
    ∀ (ps : List FP) (acc : Nat),
      (∀ p ∈ ps, modifiedTimestamp fs1 p = modifiedTimestamp fs2 p) →
      ps.foldl (fun a q => max a (modifiedTimestamp fs1 q)) acc =
        ps.foldl (fun a q => max a (modifiedTimestamp fs2 q)) acc
  | [], _, _ => rfl
  | q :: rest, acc, h => by
    rw [List.foldl_cons, List.foldl_cons, h q (List.mem_cons_self q rest)]
    exact foldl_max_congr fs1 fs2 rest _ (fun p hp => h p (List.mem_cons_of_mem q hp))

theorem newestTimestamp_eq_of (fs1 fs2 : DiskFS) (ps : List FP)
    (h : ∀ p ∈ ps, modifiedTimestamp fs1 p = modifiedTimestamp fs2 p) :
    newestTimestamp fs1 ps = newestTimestamp fs2 ps :=
  foldl_max_congr fs1 fs2 ps 0 h

theorem exportToFileDisk_some_big (fs : DiskFS) (ts : Nat) (sd : SaveData) (p : FP)
    (e : Endianness) (h : sd.setEndianness e = .ok sd) :
    exportToFileDisk fs ts (some sd) p e =
      .ok ((fs.mkdir p.dir).write p { data := sd.data, mtime := ts },
           [.mkdir p.dir, .write p sd.data, .utime p ts]) := by
  rw [show exportToFileDisk fs ts (some sd) p e =
      (match sd.setEndianness e with
       | .error msg => .error msg
       | .ok sd2 => .ok ((fs.mkdir p.dir).write p { data := sd2.data, mtime := ts },
            [.mkdir p.dir, .write p sd2.data, .utime p ts])) from rfl]
  rw [h]

theorem exportListDisk_spec (ts : Nat) :
    ∀ (L : List (Option SaveData × FP × Endianness)) (fs : DiskFS),
      (∀ t ∈ L, ∀ sd, t.1 = some sd → sd.setEndianness t.2.2 = .ok sd) →
      ∃ fsN tN, exportListDisk fs ts L = .ok (fsN, tN) ∧
        (∀ q : FP, (∀ t ∈ L, q ≠ t.2.1) → fsN.lookup q = fs.lookup q) ∧
        (∀ q : FP, modifiedTimestamp fsN q = modifiedTimestamp fs q ∨
          modifiedTimestamp fsN q = ts) ∧
        (∀ t ∈ L, ∀ sd, t.1 = some sd → modifiedTimestamp fsN t.2.1 = ts) ∧
        (∀ t ∈ L, ∀ sd, t.1 = some sd → ∃ d2, Event.write t.2.1 d2 ∈ tN) ∧
        (∀ x, fs.isDir x = true → fsN.isDir x = true)
  | [], fs, _ =>
    ⟨fs, [], rfl, fun _ _ => rfl, fun _ => Or.inl rfl,
      fun t ht => absurd ht (List.not_mem_nil t),
      fun t ht => absurd ht (List.not_mem_nil t), fun _ hx => hx⟩
  | (sd?, p, e) :: rest, fs, hok => by
    cases sd? with
    | none =>
      obtain ⟨fsN, tN, heq, hframe, hmtor, hmts, hwr, hdir⟩ :=
        exportListDisk_spec ts rest fs
          (fun t ht sd hsd => hok t (List.mem_cons_of_mem _ ht) sd hsd)
      refine ⟨fsN, tN, ?_, ?_, hmtor, ?_, ?_, hdir⟩
      · rw [show exportListDisk fs ts ((none, p, e) :: rest) =
            (match exportListDisk fs ts rest with
             | .error m => .error m
             | .ok (fs2, t2) => .ok (fs2, [] ++ t2)) from rfl, heq]
        rfl
      · exact fun q hq => hframe q (fun t ht => hq t (List.mem_cons_of_mem _ ht))
      · intro t ht sd hsd
        rcases List.mem_cons.mp ht with rfl | hmem
        · exact absurd hsd (fun hc => Option.noConfusion hc)
        · exact hmts t hmem sd hsd
      · intro t ht sd hsd
        rcases List.mem_cons.mp ht with rfl | hmem
        · exact absurd hsd (fun hc => Option.noConfusion hc)
        · exact hwr t hmem sd hsd
    | some sd =>
      have hse : sd.setEndianness e = .ok sd :=
        hok (some sd, p, e) (List.mem_cons_self _ _) sd rfl
      obtain ⟨fsN, tN, heq, hframe, hmtor, hmts, hwr, hdir⟩ :=
        exportListDisk_spec ts rest
          ((fs.mkdir p.dir).write p { data := sd.data, mtime := ts })
          (fun t ht sd2 hsd2 => hok t (List.mem_cons_of_mem _ ht) sd2 hsd2)
      refine ⟨fsN, [.mkdir p.dir, .write p sd.data, .utime p ts] ++ tN,
        ?_, ?_, ?_, ?_, ?_, ?_⟩
      · have hstep : exportListDisk fs ts ((some sd, p, e) :: rest) =
            (match exportListDisk
                ((fs.mkdir p.dir).write p { data := sd.data, mtime := ts }) ts rest with
             | .error m => .error m
             | .ok (fs2, t2) =>
               .ok (fs2, [.mkdir p.dir, .write p sd.data, .utime p ts] ++ t2)) := by
          rw [show exportListDisk fs ts ((some sd, p, e) :: rest) =
              (match exportToFileDisk fs ts (some sd) p e with
               | .error m => .error m
               | .ok (fs1, t1) =>
                 match exportListDisk fs1 ts rest with
                 | .error m => .error m
                 | .ok (fs2, t2) => .ok (fs2, t1 ++ t2)) from rfl]
          rw [exportToFileDisk_some_big fs ts sd p e hse]
        rw [hstep, heq]
      · intro q hq
        have hqp : q ≠ p := hq (some sd, p, e) (List.mem_cons_self _ _)
        rw [hframe q (fun t ht => hq t (List.mem_cons_of_mem _ ht))]
        rw [DiskFS_lookup_write_ne _ p q _ hqp]
        rfl
      · intro q
        rcases hmtor q with h | h
        · by_cases hqp : q = p
          · subst hqp
            right
            rw [h, modifiedTimestamp_write_self]
          · left
            rw [h, modifiedTimestamp_congr _ _ q (DiskFS_lookup_write_ne _ p q _ hqp)]
            rfl
        · exact Or.inr h
      · intro t ht sd2 hsd2
        rcases List.mem_cons.mp ht with rfl | hmem
        · rcases hmtor p with h | h
          · rw [h, modifiedTimestamp_write_self]
          · exact h
        · exact hmts t hmem sd2 hsd2
      · intro t ht sd2 hsd2
        rcases List.mem_cons.mp ht with rfl | hmem
        · exact ⟨sd.data, List.mem_append_left _
            (List.mem_cons_of_mem _ (List.mem_cons_self _ _))⟩
        · obtain ⟨d2, hd2⟩ := hwr t hmem sd2 hsd2
          exact ⟨d2, List.mem_append_right _ hd2⟩
      · intro x hx
        exact hdir x (DiskFS_isDir_mkdir_of fs p.dir x hx)

theorem everdriveImportDisk_ok (fs : DiskFS) (rom : FP) (srcDir : List String)
    (hrom : fs.isFile rom = true) (hsrc : fs.isDir srcDir = true) :
    ∃ s : Savegame, everdriveImportDisk fs rom srcDir = .ok s ∧
      s.eeprom = (((fs.lookup { dir := srcDir, stem := rom.stem, suffix := ".eep" }).map
        (fun e => e.data)).map (fun d => { data := d, endianness := .BIG_ENDIAN })) ∧
      s.sram = (((fs.lookup { dir := srcDir, stem := rom.stem, suffix := ".srm" }).map
        (fun e => e.data)).map (fun d => { data := d, endianness := .BIG_ENDIAN })) ∧
      s.flashram = (((fs.lookup { dir := srcDir, stem := rom.stem, suffix := ".fla" }).map
        (fun e => e.data)).map (fun d => { data := d, endianness := .BIG_ENDIAN })) ∧
      s.mpk1 = (((fs.lookup { dir := srcDir, stem := rom.stem, suffix := ".mpk" }).map
        (fun e => e.data)).map (fun d => { data := d, endianness := .BIG_ENDIAN })) ∧
      s.mpk2 = (((fs.lookup { dir := srcDir, stem := rom.stem, suffix := "_Cont_2.mpk" }).map
        (fun e => e.data)).map (fun d => { data := d, endianness := .BIG_ENDIAN })) ∧
      s.mpk3 = (((fs.lookup { dir := srcDir, stem := rom.stem, suffix := "_Cont_3.mpk" }).map
        (fun e => e.data)).map (fun d => { data := d, endianness := .BIG_ENDIAN })) ∧
      s.mpk4 = (((fs.lookup { dir := srcDir, stem := rom.stem, suffix := "_Cont_4.mpk" }).map
        (fun e => e.data)).map (fun d => { data := d, endianness := .BIG_ENDIAN })) ∧
      s.timestamp = newestTimestamp fs (edSaveFiles rom.stem srcDir) := by
  refine ⟨{
    eeprom := (((fs.lookup { dir := srcDir, stem := rom.stem, suffix := ".eep" }).map
      (fun e => e.data)).map (fun d => { data := d, endianness := .BIG_ENDIAN })),
    sram := (((fs.lookup { dir := srcDir, stem := rom.stem, suffix := ".srm" }).map
      (fun e => e.data)).map (fun d => { data := d, endianness := .BIG_ENDIAN })),
    flashram := (((fs.lookup { dir := srcDir, stem := rom.stem, suffix := ".fla" }).map
      (fun e => e.data)).map (fun d => { data := d, endianness := .BIG_ENDIAN })),
    mpk1 := (((fs.lookup { dir := srcDir, stem := rom.stem, suffix := ".mpk" }).map
      (fun e => e.data)).map (fun d => { data := d, endianness := .BIG_ENDIAN })),
    mpk2 := (((fs.lookup { dir := srcDir, stem := rom.stem, suffix := "_Cont_2.mpk" }).map
      (fun e => e.data)).map (fun d => { data := d, endianness := .BIG_ENDIAN })),
    mpk3 := (((fs.lookup { dir := srcDir, stem := rom.stem, suffix := "_Cont_3.mpk" }).map
      (fun e => e.data)).map (fun d => { data := d, endianness := .BIG_ENDIAN })),
    mpk4 := (((fs.lookup { dir := srcDir, stem := rom.stem, suffix := "_Cont_4.mpk" }).map
      (fun e => e.data)).map (fun d => { data := d, endianness := .BIG_ENDIAN })),
    timestamp := newestTimestamp fs (edSaveFiles rom.stem srcDir) },
    ?_, rfl, rfl, rfl, rfl, rfl, rfl, rfl, rfl⟩
  unfold everdriveImportDisk
  rw [if_neg (fun hc => hc hrom), if_neg (fun hc => hc hsrc)]
  rfl

/-- C4: for every file system, ROM, and pair of distinct save directories,
if the source holds a save (some flash-cart save file exists) and the
destination is older than the source state's recorded timestamp, then the
first run of the flash-cart conversion succeeds and writes a destination save
file, stamping it with the state's timestamp (`os.utime`), after which the
destination's newest modification time is at least the source timestamp — so
the second, identical run's skip guard fires and it returns with an empty
trace and the file system unchanged. -/
theorem claim_C4_second_conversion_skips (fs : DiskFS) (rom : FP)
    (srcDir dstDir : List String)
    (hrom : fs.isFile rom = true)
    (hsrc : fs.isDir srcDir = true)
    (hdst : fs.isDir dstDir = true)
    (hdirs : srcDir ≠ dstDir)
    (hromdir : rom.dir ≠ dstDir)
    (hne : ∃ p ∈ edSaveFiles rom.stem srcDir, fs.isFile p = true)
    (hstale : newestTimestamp fs (edSaveFiles rom.stem dstDir) <
      newestTimestamp fs (edSaveFiles rom.stem srcDir)) :
    ∃ fs1 t1,
      convertEDtoED fs rom srcDir dstDir false false = .ok (fs1, t1) ∧
      (∃ p ∈ edSaveFiles rom.stem dstDir, ∃ d2, Event.write p d2 ∈ t1) ∧
      newestTimestamp fs (edSaveFiles rom.stem srcDir) ≤
        newestTimestamp fs1 (edSaveFiles rom.stem dstDir) ∧
      convertEDtoED fs1 rom srcDir dstDir false false = .ok (fs1, []) := by
  obtain ⟨s, himp, hE, hS, hF, hM1, hM2, hM3, hM4, hT⟩ :=
    everdriveImportDisk_ok fs rom srcDir hrom hsrc
  have hcomp : ∀ (o : Option SaveData) (sp : FP),
      o = (((fs.lookup sp).map (fun e => e.data)).map
        (fun d => ({ data := d, endianness := .BIG_ENDIAN } : SaveData))) →
      ∀ sd, o = some sd → sd.setEndianness .BIG_ENDIAN = .ok sd := by
    intro o sp ho sd hsd
    rw [ho] at hsd
    rcases Option.map_eq_some'.mp hsd with ⟨d0, _, hfd⟩
    rw [← hfd]
    rfl
  have hbig : ∀ t ∈ ([(s.eeprom, { dir := dstDir, stem := rom.stem, suffix := ".eep" }, Endianness.BIG_ENDIAN),
       (s.sram, { dir := dstDir, stem := rom.stem, suffix := ".srm" }, Endianness.BIG_ENDIAN),
       (s.flashram, { dir := dstDir, stem := rom.stem, suffix := ".fla" }, Endianness.BIG_ENDIAN),
       (s.mpk1, { dir := dstDir, stem := rom.stem, suffix := ".mpk" }, Endianness.BIG_ENDIAN),
       (s.mpk2, { dir := dstDir, stem := rom.stem, suffix := "_Cont_2.mpk" }, Endianness.BIG_ENDIAN),
       (s.mpk3, { dir := dstDir, stem := rom.stem, suffix := "_Cont_3.mpk" }, Endianness.BIG_ENDIAN),
       (s.mpk4, { dir := dstDir, stem := rom.stem, suffix := "_Cont_4.mpk" }, Endianness.BIG_ENDIAN)] :
        List (Option SaveData × FP × Endianness)),
      ∀ sd, t.1 = some sd → sd.setEndianness t.2.2 = .ok sd := by
    intro t ht sd hsd
    simp only [List.mem_cons, List.not_mem_nil, or_false] at ht
    rcases ht with rfl | rfl | rfl | rfl | rfl | rfl | rfl
    · exact hcomp _ _ hE sd hsd
    · exact hcomp _ _ hS sd hsd
    · exact hcomp _ _ hF sd hsd
    · exact hcomp _ _ hM1 sd hsd
    · exact hcomp _ _ hM2 sd hsd
    · exact hcomp _ _ hM3 sd hsd
    · exact hcomp _ _ hM4 sd hsd
  obtain ⟨fs1, t1, hexp, hframe, hmtor, hmts, hwr, hdir⟩ :=
    exportListDisk_spec s.timestamp
      [(s.eeprom, { dir := dstDir, stem := rom.stem, suffix := ".eep" }, Endianness.BIG_ENDIAN),
       (s.sram, { dir := dstDir, stem := rom.stem, suffix := ".srm" }, Endianness.BIG_ENDIAN),
       (s.flashram, { dir := dstDir, stem := rom.stem, suffix := ".fla" }, Endianness.BIG_ENDIAN),
       (s.mpk1, { dir := dstDir, stem := rom.stem, suffix := ".mpk" }, Endianness.BIG_ENDIAN),
       (s.mpk2, { dir := dstDir, stem := rom.stem, suffix := "_Cont_2.mpk" }, Endianness.BIG_ENDIAN),
       (s.mpk3, { dir := dstDir, stem := rom.stem, suffix := "_Cont_3.mpk" }, Endianness.BIG_ENDIAN),
       (s.mpk4, { dir := dstDir, stem := rom.stem, suffix := "_Cont_4.mpk" }, Endianness.BIG_ENDIAN)]
      fs hbig
  have hdstdirL : ∀ t ∈ ([(s.eeprom, { dir := dstDir, stem := rom.stem, suffix := ".eep" }, Endianness.BIG_ENDIAN),
       (s.sram, { dir := dstDir, stem := rom.stem, suffix := ".srm" }, Endianness.BIG_ENDIAN),
       (s.flashram, { dir := dstDir, stem := rom.stem, suffix := ".fla" }, Endianness.BIG_ENDIAN),
       (s.mpk1, { dir := dstDir, stem := rom.stem, suffix := ".mpk" }, Endianness.BIG_ENDIAN),
       (s.mpk2, { dir := dstDir, stem := rom.stem, suffix := "_Cont_2.mpk" }, Endianness.BIG_ENDIAN),
       (s.mpk3, { dir := dstDir, stem := rom.stem, suffix := "_Cont_3.mpk" }, Endianness.BIG_ENDIAN),
       (s.mpk4, { dir := dstDir, stem := rom.stem, suffix := "_Cont_4.mpk" }, Endianness.BIG_ENDIAN)] :
        List (Option SaveData × FP × Endianness)), (t.2.1 : FP).dir = dstDir := by
    intro t ht
    simp only [List.mem_cons, List.not_mem_nil, or_false] at ht
    rcases ht with rfl | rfl | rfl | rfl | rfl | rfl | rfl <;> rfl
  have hsrc_ne : ∀ q : FP, q.dir = srcDir →
      ∀ t ∈ ([(s.eeprom, { dir := dstDir, stem := rom.stem, suffix := ".eep" }, Endianness.BIG_ENDIAN),
       (s.sram, { dir := dstDir, stem := rom.stem, suffix := ".srm" }, Endianness.BIG_ENDIAN),
       (s.flashram, { dir := dstDir, stem := rom.stem, suffix := ".fla" }, Endianness.BIG_ENDIAN),
       (s.mpk1, { dir := dstDir, stem := rom.stem, suffix := ".mpk" }, Endianness.BIG_ENDIAN),
       (s.mpk2, { dir := dstDir, stem := rom.stem, suffix := "_Cont_2.mpk" }, Endianness.BIG_ENDIAN),
       (s.mpk3, { dir := dstDir, stem := rom.stem, suffix := "_Cont_3.mpk" }, Endianness.BIG_ENDIAN),
       (s.mpk4, { dir := dstDir, stem := rom.stem, suffix := "_Cont_4.mpk" }, Endianness.BIG_ENDIAN)] :
        List (Option SaveData × FP × Endianness)), q ≠ t.2.1 := by
    intro q hq t ht heq2
    exact hdirs (by rw [← hq, heq2, hdstdirL t ht])
  have hrom_ne : ∀ t ∈ ([(s.eeprom, { dir := dstDir, stem := rom.stem, suffix := ".eep" }, Endianness.BIG_ENDIAN),
       (s.sram, { dir := dstDir, stem := rom.stem, suffix := ".srm" }, Endianness.BIG_ENDIAN),
       (s.flashram, { dir := dstDir, stem := rom.stem, suffix := ".fla" }, Endianness.BIG_ENDIAN),
       (s.mpk1, { dir := dstDir, stem := rom.stem, suffix := ".mpk" }, Endianness.BIG_ENDIAN),
       (s.mpk2, { dir := dstDir, stem := rom.stem, suffix := "_Cont_2.mpk" }, Endianness.BIG_ENDIAN),
       (s.mpk3, { dir := dstDir, stem := rom.stem, suffix := "_Cont_3.mpk" }, Endianness.BIG_ENDIAN),
       (s.mpk4, { dir := dstDir, stem := rom.stem, suffix := "_Cont_4.mpk" }, Endianness.BIG_ENDIAN)] :
        List (Option SaveData × FP × Endianness)), rom ≠ t.2.1 := by
    intro t ht heq2
    exact hromdir (by rw [heq2, hdstdirL t ht])
  have hsrcdir : ∀ p ∈ edSaveFiles rom.stem srcDir, p.dir = srcDir := by
    intro p hp
    simp only [edSaveFiles, List.mem_cons, List.not_mem_nil, or_false] at hp
    rcases hp with rfl | rfl | rfl | rfl | rfl | rfl | rfl <;> rfl
  have hguard1 : ¬ ((!false && decide (newestTimestamp fs
      [{ dir := dstDir, stem := rom.stem, suffix := ".eep" },
       { dir := dstDir, stem := rom.stem, suffix := ".srm" },
       { dir := dstDir, stem := rom.stem, suffix := ".fla" },
       { dir := dstDir, stem := rom.stem, suffix := ".mpk" },
       { dir := dstDir, stem := rom.stem, suffix := "_Cont_2.mpk" },
       { dir := dstDir, stem := rom.stem, suffix := "_Cont_3.mpk" },
       { dir := dstDir, stem := rom.stem, suffix := "_Cont_4.mpk" }] ≥ s.timestamp)) = true) := by
    simp only [Bool.not_false, Bool.true_and, decide_eq_true_eq]
    intro hge
    rw [hT] at hge
    exact absurd hge (not_le.mpr hstale)
  have hexp1 : everdriveExportDisk fs s rom dstDir false false = .ok (fs1, [] ++ t1) := by
    simp only [everdriveExportDisk]
    rw [if_neg (fun hc => hc hrom), if_neg (fun hc => hc hdst), if_neg hguard1]
    rw [if_neg (by decide : ¬ ((false : Bool) = true))]
    rw [show ((fs, ([] : List Event))).1 = fs from rfl,
        show ((fs, ([] : List Event))).2 = ([] : List Event) from rfl]
    rw [hexp]
  have hconv1 : convertEDtoED fs rom srcDir dstDir false false = .ok (fs1, [] ++ t1) := by
    unfold convertEDtoED
    rw [himp]
    exact hexp1
  have hkey : ∃ dp, dp ∈ edSaveFiles rom.stem dstDir ∧
      modifiedTimestamp fs1 dp = s.timestamp ∧ ∃ d2, Event.write dp d2 ∈ t1 := by
    obtain ⟨p, hp, hpf⟩ := hne
    unfold DiskFS.isFile at hpf
    obtain ⟨ent, hent⟩ := Option.isSome_iff_exists.mp hpf
    simp only [edSaveFiles, List.mem_cons, List.not_mem_nil, or_false] at hp
    rcases hp with rfl | rfl | rfl | rfl | rfl | rfl | rfl
    · refine ⟨_, List.mem_cons_self _ _, ?_, ?_⟩
      · exact hmts _ (List.mem_cons_self _ _) _ (by rw [hE, hent]; rfl)
      · exact hwr _ (List.mem_cons_self _ _) _ (by rw [hE, hent]; rfl)
    · refine ⟨_, List.mem_cons_of_mem _ (List.mem_cons_self _ _), ?_, ?_⟩
      · exact hmts _ (List.mem_cons_of_mem _ (List.mem_cons_self _ _)) _
          (by rw [hS, hent]; rfl)
      · exact hwr _ (List.mem_cons_of_mem _ (List.mem_cons_self _ _)) _
          (by rw [hS, hent]; rfl)
    · refine ⟨_, List.mem_cons_of_mem _ (List.mem_cons_of_mem _
        (List.mem_cons_self _ _)), ?_, ?_⟩
      · exact hmts _ (List.mem_cons_of_mem _ (List.mem_cons_of_mem _
          (List.mem_cons_self _ _))) _ (by rw [hF, hent]; rfl)
      · exact hwr _ (List.mem_cons_of_mem _ (List.mem_cons_of_mem _
          (List.mem_cons_self _ _))) _ (by rw [hF, hent]; rfl)
    · refine ⟨_, List.mem_cons_of_mem _ (List.mem_cons_of_mem _
        (List.mem_cons_of_mem _ (List.mem_cons_self _ _))), ?_, ?_⟩
      · exact hmts _ (List.mem_cons_of_mem _ (List.mem_cons_of_mem _
          (List.mem_cons_of_mem _ (List.mem_cons_self _ _)))) _ (by rw [hM1, hent]; rfl)
      · exact hwr _ (List.mem_cons_of_mem _ (List.mem_cons_of_mem _
          (List.mem_cons_of_mem _ (List.mem_cons_self _ _)))) _ (by rw [hM1, hent]; rfl)
    · refine ⟨_, List.mem_cons_of_mem _ (List.mem_cons_of_mem _
        (List.mem_cons_of_mem _ (List.mem_cons_of_mem _ (List.mem_cons_self _ _)))), ?_, ?_⟩
      · exact hmts _ (List.mem_cons_of_mem _ (List.mem_cons_of_mem _
          (List.mem_cons_of_mem _ (List.mem_cons_of_mem _ (List.mem_cons_self _ _))))) _
          (by rw [hM2, hent]; rfl)
      · exact hwr _ (List.mem_cons_of_mem _ (List.mem_cons_of_mem _
          (List.mem_cons_of_mem _ (List.mem_cons_of_mem _ (List.mem_cons_self _ _))))) _
          (by rw [hM2, hent]; rfl)
    · refine ⟨_, List.mem_cons_of_mem _ (List.mem_cons_of_mem _
        (List.mem_cons_of_mem _ (List.mem_cons_of_mem _ (List.mem_cons_of_mem _
        (List.mem_cons_self _ _))))), ?_, ?_⟩
      · exact hmts _ (List.mem_cons_of_mem _ (List.mem_cons_of_mem _
          (List.mem_cons_of_mem _ (List.mem_cons_of_mem _ (List.mem_cons_of_mem _
          (List.mem_cons_self _ _)))))) _ (by rw [hM3, hent]; rfl)
      · exact hwr _ (List.mem_cons_of_mem _ (List.mem_cons_of_mem _
          (List.mem_cons_of_mem _ (List.mem_cons_of_mem _ (List.mem_cons_of_mem _
          (List.mem_cons_self _ _)))))) _ (by rw [hM3, hent]; rfl)
    · refine ⟨_, List.mem_cons_of_mem _ (List.mem_cons_of_mem _
        (List.mem_cons_of_mem _ (List.mem_cons_of_mem _ (List.mem_cons_of_mem _
        (List.mem_cons_of_mem _ (List.mem_cons_self _ _)))))), ?_, ?_⟩
      · exact hmts _ (List.mem_cons_of_mem _ (List.mem_cons_of_mem _
          (List.mem_cons_of_mem _ (List.mem_cons_of_mem _ (List.mem_cons_of_mem _
          (List.mem_cons_of_mem _ (List.mem_cons_self _ _))))))) _ (by rw [hM4, hent]; rfl)
      · exact hwr _ (List.mem_cons_of_mem _ (List.mem_cons_of_mem _
          (List.mem_cons_of_mem _ (List.mem_cons_of_mem _ (List.mem_cons_of_mem _
          (List.mem_cons_of_mem _ (List.mem_cons_self _ _))))))) _ (by rw [hM4, hent]; rfl)
  obtain ⟨dp, hdpmem, hdpmt, hdpwr⟩ := hkey
  have hge : newestTimestamp fs (edSaveFiles rom.stem srcDir) ≤
      newestTimestamp fs1 (edSaveFiles rom.stem dstDir) := by
    rw [← hT, ← hdpmt]
    exact le_newestTimestamp_of_mem fs1 _ dp hdpmem
  have hrom1 : fs1.isFile rom = true := by
    unfold DiskFS.isFile
    rw [hframe rom hrom_ne]
    exact hrom
  have hsrc1 : fs1.isDir srcDir = true := hdir _ hsrc
  have hdst1 : fs1.isDir dstDir = true := hdir _ hdst
  obtain ⟨s2, himp2, hE2, hS2, hF2, hM12, hM22, hM32, hM42, hT2⟩ :=
    everdriveImportDisk_ok fs1 rom srcDir hrom1 hsrc1
  have hT2eq : s2.timestamp = s.timestamp := by
    rw [hT2, hT]
    exact newestTimestamp_eq_of fs1 fs _ (fun p hp =>
      modifiedTimestamp_congr fs1 fs p (hframe p (hsrc_ne p (hsrcdir p hp))))
  have hguard2 : ((!false && decide (newestTimestamp fs1
      [{ dir := dstDir, stem := rom.stem, suffix := ".eep" },
       { dir := dstDir, stem := rom.stem, suffix := ".srm" },
       { dir := dstDir, stem := rom.stem, suffix := ".fla" },
       { dir := dstDir, stem := rom.stem, suffix := ".mpk" },
       { dir := dstDir, stem := rom.stem, suffix := "_Cont_2.mpk" },
       { dir := dstDir, stem := rom.stem, suffix := "_Cont_3.mpk" },
       { dir := dstDir, stem := rom.stem, suffix := "_Cont_4.mpk" }] ≥ s2.timestamp)) = true) := by
    simp only [Bool.not_false, Bool.true_and, decide_eq_true_eq]
    rw [hT2eq]
    calc s.timestamp = modifiedTimestamp fs1 dp := hdpmt.symm
      _ ≤ newestTimestamp fs1 (edSaveFiles rom.stem dstDir) :=
        le_newestTimestamp_of_mem fs1 _ dp hdpmem
  have hexp2 : everdriveExportDisk fs1 s2 rom dstDir false false = .ok (fs1, []) := by
    simp only [everdriveExportDisk]
    rw [if_neg (fun hc => hc hrom1), if_neg (fun hc => hc hdst1), if_pos hguard2]
  refine ⟨fs1, t1, hconv1, ⟨dp, hdpmem, hdpwr⟩, hge, ?_⟩
  unfold convertEDtoED
  rw [himp2]
  exact hexp2

/-- Witness for C4: a concrete one-save scenario run through both
conversions of the theorem. -/
theorem claim_C4_second_conversion_skips_witness :
    ∃ fs1 t1,
      convertEDtoED
        { files := [({ dir := ["roms"], stem := "Game", suffix := ".z64" },
                     { data := [128], mtime := 1 }),
                    ({ dir := ["src"], stem := "Game", suffix := ".eep" },
                     { data := [9], mtime := 5 })],
          dirs := [["roms"], ["src"], ["dst"]] }
        { dir := ["roms"], stem := "Game", suffix := ".z64" }
        ["src"] ["dst"] false false = .ok (fs1, t1) ∧
      (∃ p ∈ edSaveFiles "Game" ["dst"], ∃ d2, Event.write p d2 ∈ t1) ∧
      newestTimestamp
        { files := [({ dir := ["roms"], stem := "Game", suffix := ".z64" },
                     { data := [128], mtime := 1 }),
                    ({ dir := ["src"], stem := "Game", suffix := ".eep" },
                     { data := [9], mtime := 5 })],
          dirs := [["roms"], ["src"], ["dst"]] }
        (edSaveFiles "Game" ["src"]) ≤
        newestTimestamp fs1 (edSaveFiles "Game" ["dst"]) ∧
      convertEDtoED fs1
        { dir := ["roms"], stem := "Game", suffix := ".z64" }
        ["src"] ["dst"] false false = .ok (fs1, []) :=
  claim_C4_second_conversion_skips
    { files := [({ dir := ["roms"], stem := "Game", suffix := ".z64" },
                 { data := [128], mtime := 1 }),
                ({ dir := ["src"], stem := "Game", suffix := ".eep" },
                 { data := [9], mtime := 5 })],
      dirs := [["roms"], ["src"], ["dst"]] }
    { dir := ["roms"], stem := "Game", suffix := ".z64" }
    ["src"] ["dst"] (by decide) (by decide) (by decide) (by decide) (by decide)
    (by decide) (by decide)

end N64
